import Mathlib

/-!
Shallow embedding of the `orchestrator-rust` synthesis pipeline.

Numeric conventions: Rust `f64` values are idealised as real numbers (`ℝ`).
Rust's float-to-integer `as` casts truncate toward zero; for the nonnegative
quantities cast to `u32`/`usize` in this code base that is `Int.toNat ∘ Int.floor`
(negative values saturate to 0, which `Int.toNat` also gives).  Saturation of
float casts at the top of the integer range (durations beyond 2^32 samples) is
not modelled.  `u8`/`u32`/`usize` machine integers are embedded as `ℕ`; the one
place where integer-cast wrap-around is observable (the WAV encoder's `u32`
size fields) keeps an explicit `% 2^32`.
-/

/-- Rust `as u32` / `as usize` applied to a nonnegative `f64`: truncation toward
zero; a negative argument gives `0` (saturation at the bottom). -/
noncomputable def fToNat (x : ℝ) : ℕ := (⌊x⌋).toNat

/-- Rust `as i16` applied to an in-range `f64`: truncation toward zero. -/
noncomputable def fToInt (x : ℝ) : ℤ := if 0 ≤ x then ⌊x⌋ else -⌊-x⌋

/-- From `src/errors.rs`: `OrchestratorError`.  The `InvalidControlPoints` payload is
the formatted message string; the decimal rendering of the offending `f64`
value is abstracted away (only the constructor and the integer parts of the
message are modelled). -/
inductive OrchestratorError where
  | InvalidNoteId : ℕ → OrchestratorError
  | InvalidBpm : ℕ → OrchestratorError
  | InvalidOctave : ℕ → OrchestratorError
  | InvalidAmplitude : ℝ → OrchestratorError
  | EmptyNotes : OrchestratorError
  | InvalidControlPoints : String → OrchestratorError

/-- Message built by `validate_control_points` when the count is not 4. -/
def controlPointCountMsg (n : ℕ) : String :=
  "Expected 4 control points, got " ++ toString n

/-- Message built by `validate_control_points` for an out-of-range point (the
float value printed by the Rust code is abstracted away). -/
def controlPointRangeMsg (index : ℕ) : String :=
  "Control point " ++ toString index ++ " has out-of-range value, must be between -1.0 and 1.0"

/-- From `src/orchestrator.rs`: `Note` (sequential form). -/
structure Note where
  id : ℕ
  octave : ℕ
  beats : ℝ
  amplitude : ℝ

/-- The frequency formula shared by `Note::frequency` and
`TimelineNote::frequency`: `440 * 2^((id - 9 + 12*(octave - 4)) / 12)`. -/
noncomputable def rawFrequency (id octave : ℕ) : ℝ :=
  440 * (2:ℝ) ^ (((id:ℝ) - 9 + 12 * ((octave:ℝ) - 4)) / 12)

/-- From `src/orchestrator.rs` lines 28-36: `Note::frequency`. -/
noncomputable def Note.frequency (n : Note) : Except OrchestratorError ℝ :=
  if n.id > 11 then .error (.InvalidNoteId n.id)
  else .ok (rawFrequency n.id n.octave)

/-- From `src/oscillator.rs`: `PCM_BIT_RANGE = 2^(16-1) - 1 = 32767`. -/
def PCM_BIT_RANGE : ℕ := 2 ^ (16 - 1) - 1

/-- From `src/oscillator.rs`: `SinOscillator`. -/
structure SinOscillator where
  frequency : ℝ
  amplitude : ℝ
  sample_rate : ℕ

/-- From `src/oscillator.rs` lines 13-16: `SinOscillator::sample`. -/
noncomputable def SinOscillator.sample (w : SinOscillator) (sample_index : ℕ) : ℝ :=
  w.amplitude * Real.sin ((2 * Real.pi * w.frequency * (sample_index:ℝ)) / (w.sample_rate:ℝ))

/-- From `src/oscillator.rs` lines 19-24: `SinOscillator::pcm_sample` — clamp to
`[-1,1]`, scale by 32767, truncate toward zero. -/
noncomputable def SinOscillator.pcm_sample (w : SinOscillator) (sample_index : ℕ) : ℤ :=
  fToInt (max (-1) (min (w.sample sample_index) 1) * (PCM_BIT_RANGE:ℝ))

/-- From `src/validation.rs` lines 6-11: `validate_bpm`. -/
def validate_bpm (bpm : ℕ) : Except OrchestratorError Unit :=
  if bpm = 0 then .error (.InvalidBpm bpm) else .ok ()

/-- From `src/validation.rs` lines 27-44: `validate_note` — id, then octave, then
amplitude, in that order. -/
noncomputable def validate_note (note : Note) : Except OrchestratorError Unit :=
  if note.id > 11 then .error (.InvalidNoteId note.id)
  else if note.octave > 8 then .error (.InvalidOctave note.octave)
  else if note.amplitude < 0 ∨ note.amplitude > 1 then .error (.InvalidAmplitude note.amplitude)
  else .ok ()

/-- Left-to-right iteration of `validate_note` over the list. -/
noncomputable def validateNoteList : List Note → Except OrchestratorError Unit
  | [] => .ok ()
  | note :: rest =>
    match validate_note note with
    | .error e => .error e
    | .ok _ => validateNoteList rest

/-- From `src/validation.rs` lines 14-24: `validate_notes`. -/
noncomputable def validate_notes (notes : List Note) : Except OrchestratorError Unit :=
  if notes.isEmpty then .error .EmptyNotes else validateNoteList notes

/-- Range check of `validate_control_points` (`src/validation.rs` lines 57-64),
carrying the running `enumerate` index. -/
noncomputable def validateControlPointValues : ℕ → List ℝ → Except OrchestratorError Unit
  | _, [] => .ok ()
  | index, p :: rest =>
    if p < -1 ∨ p > 1 then .error (.InvalidControlPoints (controlPointRangeMsg index))
    else validateControlPointValues (index + 1) rest

/-- From `src/validation.rs` lines 47-67: `validate_control_points`. -/
noncomputable def validate_control_points (points : List ℝ) : Except OrchestratorError Unit :=
  if points.length ≠ 4 then .error (.InvalidControlPoints (controlPointCountMsg points.length))
  else validateControlPointValues 0 points

/-- Modelled from the spec: the shaped-waveform oscillator `BezierOscillator`
(`use crate::oscillator::BezierOscillator`) has no definition under `src/`;
only its callers are present.  Per the spec (section 4.2) it holds the four
curve-control scalars together with frequency, amplitude and sample rate. -/
structure BezierOscillator where
  frequency : ℝ
  amplitude : ℝ
  sample_rate : ℕ
  control_points : List ℝ

/-- Modelled from the spec: `BezierOscillator::new` "fails with
`InvalidControlPoints` unless given exactly 4 scalars each within [-1,1]"
(section 4.2); the check is the same `validate_control_points` performed at
orchestrator construction. -/
noncomputable def BezierOscillator.new (frequency amplitude : ℝ) (sample_rate : ℕ)
    (control_points : List ℝ) : Except OrchestratorError BezierOscillator :=
  match validate_control_points control_points with
  | .error e => .error e
  | .ok _ => .ok ⟨frequency, amplitude, sample_rate, control_points⟩

/-- Modelled from the spec: one concrete choice of the cubic-curve evaluation
(the spec leaves the exact interpolation rule open; section 9).  The four
scalars are used as the y-values of a cubic Bezier curve over one phase
cycle. -/
noncomputable def bezierCurvePoint (pts : List ℝ) (t : ℝ) : ℝ :=
  (1 - t)^3 * pts.getD 0 0 + 3 * (1 - t)^2 * t * pts.getD 1 0
    + 3 * (1 - t) * t^2 * pts.getD 2 0 + t^3 * pts.getD 3 0

/-- Modelled from the spec: the shaped generator's `sample` — same phase
progression as the sine generator, with the fractional cycle position mapped
through the periodic curve (section 4.2). -/
noncomputable def BezierOscillator.sample (w : BezierOscillator) (sample_index : ℕ) : ℝ :=
  w.amplitude * bezierCurvePoint w.control_points
    (Int.fract ((w.frequency * (sample_index:ℝ)) / (w.sample_rate:ℝ)))

/-- Modelled from the spec: the shaped generator's `pcm_sample` — same
clamp-and-truncate conversion as `SinOscillator::pcm_sample` (section 4.2). -/
noncomputable def BezierOscillator.pcm_sample (w : BezierOscillator) (sample_index : ℕ) : ℤ :=
  fToInt (max (-1) (min (w.sample sample_index) 1) * (PCM_BIT_RANGE:ℝ))

/-- From `src/orchestrator.rs`: `SineOrchestrator`. -/
structure SineOrchestrator where
  bpm : ℕ
  notes : List Note

/-- From `src/orchestrator.rs`: `BezierOrchestrator`. -/
structure BezierOrchestrator where
  bpm : ℕ
  notes : List Note
  control_points : List ℝ

/-- From `src/orchestrator.rs` lines 91-108: the note loop of
`SineOrchestrator::pcm_samples` — per note, `samples_per_note` samples from
local index 0 pushed in order. -/
noncomputable def sinePcmNotes (bpm sample_rate : ℕ) : List Note → Except OrchestratorError (List ℤ)
  | [] => .ok []
  | note :: rest =>
    match note.frequency with
    | .error e => .error e
    | .ok f =>
      let wave : SinOscillator := ⟨f, note.amplitude, sample_rate⟩
      let duration := note.beats * (60 / (bpm:ℝ))
      let samples_per_note := fToNat (duration * (sample_rate:ℝ))
      match sinePcmNotes bpm sample_rate rest with
      | .error e => .error e
      | .ok tail => .ok ((List.range samples_per_note).map wave.pcm_sample ++ tail)

/-- From `src/orchestrator.rs` lines 91-108: `SineOrchestrator::pcm_samples`. -/
noncomputable def SineOrchestrator.pcm_samples (o : SineOrchestrator) (sample_rate : ℕ) :
    Except OrchestratorError (List ℤ) :=
  sinePcmNotes o.bpm sample_rate o.notes

/-- From `src/orchestrator.rs` lines 118-136: the note loop of
`BezierOrchestrator::pcm_samples` (the oscillator itself is spec-modelled). -/
noncomputable def bezierPcmNotes (bpm sample_rate : ℕ) (control_points : List ℝ) :
    List Note → Except OrchestratorError (List ℤ)
  | [] => .ok []
  | note :: rest =>
    match note.frequency with
    | .error e => .error e
    | .ok f =>
      match BezierOscillator.new f note.amplitude sample_rate control_points with
      | .error e => .error e
      | .ok wave =>
        let duration := note.beats * (60 / (bpm:ℝ))
        let samples_per_note := fToNat (duration * (sample_rate:ℝ))
        match bezierPcmNotes bpm sample_rate control_points rest with
        | .error e => .error e
        | .ok tail => .ok ((List.range samples_per_note).map wave.pcm_sample ++ tail)

/-- From `src/orchestrator.rs`: `BezierOrchestrator::pcm_samples`. -/
noncomputable def BezierOrchestrator.pcm_samples (o : BezierOrchestrator) (sample_rate : ℕ) :
    Except OrchestratorError (List ℤ) :=
  bezierPcmNotes o.bpm sample_rate o.control_points o.notes

/-- From `src/orchestrator.rs` lines 39-42: the `Orchestrator` enum. -/
inductive Orchestrator where
  | Sine : SineOrchestrator → Orchestrator
  | Bezier : BezierOrchestrator → Orchestrator

/-- From `src/orchestrator.rs` lines 45-50: `Orchestrator::pcm_samples`. -/
noncomputable def Orchestrator.pcm_samples : Orchestrator → ℕ → Except OrchestratorError (List ℤ)
  | .Sine s, rate => s.pcm_samples rate
  | .Bezier b, rate => b.pcm_samples rate

/-- From `src/orchestrator.rs` lines 52-71: `Orchestrator::new` — validate bpm, then
notes, then (when supplied) control points. -/
noncomputable def Orchestrator.new (bpm : ℕ) (notes : List Note)
    (control_points : Option (List ℝ)) : Except OrchestratorError Orchestrator :=
  match validate_bpm bpm with
  | .error e => .error e
  | .ok _ =>
    match validate_notes notes with
    | .error e => .error e
    | .ok _ =>
      match control_points with
      | some points =>
        match validate_control_points points with
        | .error e => .error e
        | .ok _ => .ok (.Bezier ⟨bpm, notes, points⟩)
      | none => .ok (.Sine ⟨bpm, notes⟩)

/-- From `src/adsr.rs` lines 1-6: `ADSREnvelopeState`. -/
inductive ADSREnvelopeState where
  | Attack : ADSREnvelopeState
  | Decay : ADSREnvelopeState
  | Sustain : ADSREnvelopeState
  | Release : ADSREnvelopeState
deriving DecidableEq

/-- From `src/adsr.rs` lines 8-17: `ADSREnvelope`. -/
structure ADSREnvelope where
  attack : ℝ
  decay : ℝ
  sustain : ℝ
  release : ℝ
  sample_rate : ℕ
  current_state : ADSREnvelopeState
  current_factor : ℝ
  raw_duration_in_seconds : ℝ

/-- From `src/adsr.rs` lines 20-38: `ADSREnvelope::new` — starts in `Attack` with
factor 0. -/
def ADSREnvelope.new (attack decay sustain release : ℝ) (sample_rate : ℕ)
    (raw_duration_in_seconds : ℝ) : ADSREnvelope :=
  ⟨attack, decay, sustain, release, sample_rate, .Attack, 0, raw_duration_in_seconds⟩

/-- From `src/adsr.rs` lines 51-68: `ADSREnvelope::determine_state` — each comparison
is against the `as u32`-cast (floored) value. -/
noncomputable def ADSREnvelope.determine_state (e : ADSREnvelope) (sample_index : ℕ) :
    ADSREnvelopeState :=
  if sample_index > fToNat (e.raw_duration_in_seconds * (e.sample_rate:ℝ)) then .Release
  else if sample_index < fToNat (e.attack * (e.sample_rate:ℝ)) then .Attack
  else if sample_index < fToNat ((e.attack + e.decay) * (e.sample_rate:ℝ)) then .Decay
  else .Sustain

/-- From `src/adsr.rs` lines 40-49 and 70-102: `ADSREnvelope::apply` together with the
four `apply_*` helpers; returns the shaped sample and the updated instance
(Rust mutates `self`; the embedding threads the state explicitly). -/
noncomputable def ADSREnvelope.apply (e : ADSREnvelope) (sample : ℝ)
    (current_sample_index : ℕ) : ℝ × ADSREnvelope :=
  match e.determine_state current_sample_index with
  | .Attack =>
    let t_a := e.attack * (e.sample_rate:ℝ)
    let factor := (current_sample_index:ℝ) / t_a
    (sample * factor, { e with current_state := .Attack, current_factor := factor })
  | .Decay =>
    let t_d := e.decay * (e.sample_rate:ℝ)
    let attack_end := e.attack * (e.sample_rate:ℝ)
    let decay_start_index := (current_sample_index:ℝ) - attack_end
    let factor := 1 - (1 - e.sustain) * (decay_start_index / t_d)
    (sample * factor, { e with current_state := .Decay, current_factor := factor })
  | .Sustain =>
    (sample * e.sustain, { e with current_state := .Sustain, current_factor := e.sustain })
  | .Release =>
    let t_r := e.release * (e.sample_rate:ℝ)
    let t_release_at := e.raw_duration_in_seconds * (e.sample_rate:ℝ)
    let factor := e.current_factor * (1 - ((current_sample_index:ℝ) - t_release_at) / t_r)
    (sample * factor, { e with current_state := .Release, current_factor := factor })

/-- From `src/timeline_orchestrator.rs` line 8: `CONDENSE_CONSTANT = 0.9`. -/
def CONDENSE_CONSTANT : ℝ := 0.9

/-- From `src/timeline_orchestrator.rs` line 9: its own `PCM_BIT_RANGE: f64 = 32767.0`. -/
def TIMELINE_PCM_BIT_RANGE : ℝ := 32767

/-- From `src/timeline_orchestrator.rs` lines 11-18: `TimelineNote`. -/
structure TimelineNote where
  id : ℕ
  octave : ℕ
  start_time : ℝ
  duration : ℝ
  amplitude : ℝ

/-- From `src/timeline_orchestrator.rs` lines 34-42: `TimelineNote::frequency` — the
same formula and guard as `Note::frequency`. -/
noncomputable def TimelineNote.frequency (n : TimelineNote) : Except OrchestratorError ℝ :=
  if n.id > 11 then .error (.InvalidNoteId n.id)
  else .ok (rawFrequency n.id n.octave)

/-- From `src/validation.rs` lines 83-100: `validate_timeline_note`. -/
noncomputable def validate_timeline_note (note : TimelineNote) : Except OrchestratorError Unit :=
  if note.id > 11 then .error (.InvalidNoteId note.id)
  else if note.octave > 8 then .error (.InvalidOctave note.octave)
  else if note.amplitude < 0 ∨ note.amplitude > 1 then .error (.InvalidAmplitude note.amplitude)
  else .ok ()

/-- Left-to-right iteration of `validate_timeline_note` over the list. -/
noncomputable def validateTimelineNoteList : List TimelineNote → Except OrchestratorError Unit
  | [] => .ok ()
  | note :: rest =>
    match validate_timeline_note note with
    | .error e => .error e
    | .ok _ => validateTimelineNoteList rest

/-- From `src/validation.rs` lines 70-80: `validate_timeline_notes`. -/
noncomputable def validate_timeline_notes (notes : List TimelineNote) :
    Except OrchestratorError Unit :=
  if notes.isEmpty then .error .EmptyNotes else validateTimelineNoteList notes

/-- One iteration of the inner per-note loop (`src/timeline_orchestrator.rs`
lines 154-161): when the global index `start + i` is inside the buffer, shape
sample `i` with the envelope and add it into the accumulator; otherwise do
nothing (the envelope is not advanced either, since the Rust `apply` call sits
inside the bounds check). -/
noncomputable def noteStep (wsample : ℕ → ℝ) (start total : ℕ)
    (st : ADSREnvelope × List ℝ) (i : ℕ) : ADSREnvelope × List ℝ :=
  if start + i < total then
    ((st.1.apply (wsample i) i).2,
      st.2.set (start + i) (st.2.getD (start + i) 0 + (st.1.apply (wsample i) i).1))
  else st

/-- The whole inner per-note loop: fold `noteStep` over local indices
`0, ..., cnt-1`. -/
noncomputable def mixNote (wsample : ℕ → ℝ) (start cnt total : ℕ) (env : ADSREnvelope)
    (acc : List ℝ) : List ℝ :=
  ((List.range cnt).foldl (noteStep wsample start total) (env, acc)).2

/-- From `src/timeline_orchestrator.rs` lines 106-113: `TimelineSineOrchestrator`. -/
structure TimelineSineOrchestrator where
  bpm : ℕ
  notes : List TimelineNote
  attack : ℝ
  decay : ℝ
  sustain : ℝ
  release : ℝ

/-- From `src/timeline_orchestrator.rs` lines 134-162: the outer note loop of
`TimelineSineOrchestrator::pcm_samples` — per note, build the oscillator with
the condensed amplitude, compute the start sample and the per-note sample
count, instantiate a fresh envelope from the note's own duration, and run the
inner loop. -/
noncomputable def TimelineSineOrchestrator.mixAll (o : TimelineSineOrchestrator)
    (sample_rate total_samples : ℕ) :
    List TimelineNote → List ℝ → Except OrchestratorError (List ℝ)
  | [], acc => .ok acc
  | note :: rest, acc =>
    match note.frequency with
    | .error e => .error e
    | .ok f =>
      let spb := 60 / ((o.bpm):ℝ)
      let wave : SinOscillator := ⟨f, note.amplitude * CONDENSE_CONSTANT, sample_rate⟩
      let start_sample := fToNat (note.start_time * spb * (sample_rate:ℝ))
      let cnt := fToNat ((note.duration + o.release) * spb * (sample_rate:ℝ))
      let env := ADSREnvelope.new o.attack o.decay o.sustain o.release sample_rate
        (note.duration * spb)
      o.mixAll sample_rate total_samples rest
        (mixNote wave.sample start_sample cnt total_samples env acc)

/-- From `src/timeline_orchestrator.rs` lines 117-126: the accumulator length —
`ceil((max over notes of (start_time + duration)) * seconds_per_beat + release)
* sample_rate) as usize`. -/
noncomputable def TimelineSineOrchestrator.total_samples (o : TimelineSineOrchestrator)
    (sample_rate : ℕ) : ℕ :=
  let spb := 60 / ((o.bpm):ℝ)
  let total_beats := o.notes.foldl (fun m note => max m (note.start_time + note.duration)) 0
  (⌈(total_beats * spb + o.release) * (sample_rate:ℝ)⌉).toNat

/-- From `src/timeline_orchestrator.rs` lines 116-176: `TimelineSineOrchestrator::pcm_samples`
— zero-filled accumulator, per-note mixing, then `tanh` soft clipping scaled to
the 16-bit range. -/
noncomputable def TimelineSineOrchestrator.pcm_samples (o : TimelineSineOrchestrator)
    (sample_rate : ℕ) : Except OrchestratorError (List ℤ) :=
  let total := o.total_samples sample_rate
  match o.mixAll sample_rate total o.notes (List.replicate total 0) with
  | .error e => .error e
  | .ok sums => .ok (sums.map (fun s => fToInt (Real.tanh s * TIMELINE_PCM_BIT_RANGE)))

/-- From `src/timeline_orchestrator.rs` lines 179-187: `TimelineBezierOrchestrator`. -/
structure TimelineBezierOrchestrator where
  bpm : ℕ
  notes : List TimelineNote
  control_points : List ℝ
  attack : ℝ
  decay : ℝ
  sustain : ℝ
  release : ℝ

/-- From `src/timeline_orchestrator.rs` lines 208-237: the outer note loop of
`TimelineBezierOrchestrator::pcm_samples` (the oscillator is spec-modelled). -/
noncomputable def TimelineBezierOrchestrator.mixAll (o : TimelineBezierOrchestrator)
    (sample_rate total_samples : ℕ) :
    List TimelineNote → List ℝ → Except OrchestratorError (List ℝ)
  | [], acc => .ok acc
  | note :: rest, acc =>
    match note.frequency with
    | .error e => .error e
    | .ok f =>
      match BezierOscillator.new f (note.amplitude * CONDENSE_CONSTANT) sample_rate
          o.control_points with
      | .error e => .error e
      | .ok wave =>
        let spb := 60 / ((o.bpm):ℝ)
        let start_sample := fToNat (note.start_time * spb * (sample_rate:ℝ))
        let cnt := fToNat ((note.duration + o.release) * spb * (sample_rate:ℝ))
        let env := ADSREnvelope.new o.attack o.decay o.sustain o.release sample_rate
          (note.duration * spb)
        o.mixAll sample_rate total_samples rest
          (mixNote wave.sample start_sample cnt total_samples env acc)

/-- From `src/timeline_orchestrator.rs` lines 193-200: the Bezier variant's
accumulator length (same formula as the sine variant). -/
noncomputable def TimelineBezierOrchestrator.total_samples (o : TimelineBezierOrchestrator)
    (sample_rate : ℕ) : ℕ :=
  let spb := 60 / ((o.bpm):ℝ)
  let total_beats := o.notes.foldl (fun m note => max m (note.start_time + note.duration)) 0
  (⌈(total_beats * spb + o.release) * (sample_rate:ℝ)⌉).toNat

/-- From `src/timeline_orchestrator.rs` lines 190-251: `TimelineBezierOrchestrator::pcm_samples`. -/
noncomputable def TimelineBezierOrchestrator.pcm_samples (o : TimelineBezierOrchestrator)
    (sample_rate : ℕ) : Except OrchestratorError (List ℤ) :=
  let total := o.total_samples sample_rate
  match o.mixAll sample_rate total o.notes (List.replicate total 0) with
  | .error e => .error e
  | .ok sums => .ok (sums.map (fun s => fToInt (Real.tanh s * TIMELINE_PCM_BIT_RANGE)))

/-- From `src/timeline_orchestrator.rs` lines 45-48: the `TimelineOrchestrator` enum. -/
inductive TimelineOrchestrator where
  | Sine : TimelineSineOrchestrator → TimelineOrchestrator
  | Bezier : TimelineBezierOrchestrator → TimelineOrchestrator

/-- From `src/timeline_orchestrator.rs` lines 51-56: `TimelineOrchestrator::pcm_samples`. -/
noncomputable def TimelineOrchestrator.pcm_samples :
    TimelineOrchestrator → ℕ → Except OrchestratorError (List ℤ)
  | .Sine s, rate => s.pcm_samples rate
  | .Bezier b, rate => b.pcm_samples rate

/-- From `src/timeline_orchestrator.rs` lines 58-92: `TimelineOrchestrator::new` —
validate bpm, then notes; missing ADSR parameters default to
`(0.0, 0.0, 1.0, 0.0)`; control points (when supplied) are validated and pick
the Bezier variant. -/
noncomputable def TimelineOrchestrator.new (bpm : ℕ) (notes : List TimelineNote)
    (control_points : Option (List ℝ)) (adsr : Option (ℝ × ℝ × ℝ × ℝ)) :
    Except OrchestratorError TimelineOrchestrator :=
  match validate_bpm bpm with
  | .error e => .error e
  | .ok _ =>
    match validate_timeline_notes notes with
    | .error e => .error e
    | .ok _ =>
      let p := adsr.getD (0, 0, 1, 0)
      match control_points with
      | some points =>
        match validate_control_points points with
        | .error e => .error e
        | .ok _ => .ok (.Bezier ⟨bpm, notes, points, p.1, p.2.1, p.2.2.1, p.2.2.2⟩)
      | none => .ok (.Sine ⟨bpm, notes, p.1, p.2.1, p.2.2.1, p.2.2.2⟩)

/-- Little-endian bytes of a `u16` value (`to_le_bytes`). -/
def u16le (n : ℕ) : List ℕ := [n % 256, n / 256 % 256]

/-- Little-endian bytes of a `u32` value (`to_le_bytes`). -/
def u32le (n : ℕ) : List ℕ :=
  [n % 256, n / 256 % 256, n / 2 ^ 16 % 256, n / 2 ^ 24 % 256]

/-- Little-endian bytes of an `i16` sample (`to_le_bytes`, two's complement). -/
def i16le (s : ℤ) : List ℕ := u16le (s % 65536).toNat

/-- From `src/wav.rs` lines 6-68: the byte stream produced by `write` (the
filesystem side — directory creation and the file handle — is not part of the
encoding and is not modelled; the bytes are emitted in the order of the
`write_all` calls).  `as u32` casts of `usize` values wrap modulo `2^32`, and
the `u32` multiplication and addition wrap likewise. -/
def wav_write (samples : List ℤ) (sample_rate : ℕ) : List ℕ :=
  let num_channels : ℕ := 1
  let bits_per_sample : ℕ := 16
  let bytes_per_sample : ℕ := bits_per_sample / 8
  let byte_rate : ℕ := sample_rate * num_channels * bytes_per_sample % 2 ^ 32
  let block_align : ℕ := num_channels * bytes_per_sample
  let data_size : ℕ := samples.length % 2 ^ 32 * bytes_per_sample % 2 ^ 32
  let file_size : ℕ := (36 + data_size) % 2 ^ 32
  [82, 73, 70, 70] ++ u32le file_size ++ [87, 65, 86, 69]
    ++ [102, 109, 116, 32] ++ u32le 16 ++ u16le 1 ++ u16le num_channels
    ++ u32le (sample_rate % 2 ^ 32) ++ u32le byte_rate ++ u16le block_align
    ++ u16le bits_per_sample
    ++ [100, 97, 116, 97] ++ u32le data_size ++ samples.flatMap i16le

/-- Read a little-endian `u16` field at a byte offset of a WAV byte stream. -/
def rd16 (bytes : List ℕ) (off : ℕ) : ℕ :=
  bytes.getD off 0 + 256 * bytes.getD (off + 1) 0

/-- Read a little-endian `u32` field at a byte offset of a WAV byte stream. -/
def rd32 (bytes : List ℕ) (off : ℕ) : ℕ :=
  bytes.getD off 0 + 256 * bytes.getD (off + 1) 0
    + 2 ^ 16 * bytes.getD (off + 2) 0 + 2 ^ 24 * bytes.getD (off + 3) 0

/-- Parse the fixed-offset header fields of the 44-byte WAV header:
channel count (offset 22), bits per sample (offset 34), sample rate
(offset 24) and data size (offset 40). -/
def parseHeader (bytes : List ℕ) : ℕ × ℕ × ℕ × ℕ :=
  (rd16 bytes 22, rd16 bytes 34, rd32 bytes 24, rd32 bytes 40)

/-- The block of PCM samples one note contributes in the sequential strategy:
`floor(beats * (60/bpm) * sample_rate)` sine samples from local index 0. -/
noncomputable def seqNoteBlock (bpm sample_rate : ℕ) (note : Note) : List ℤ :=
  (List.range (fToNat (note.beats * (60 / (bpm:ℝ)) * (sample_rate:ℝ)))).map
    (SinOscillator.pcm_sample ⟨rawFrequency note.id note.octave, note.amplitude, sample_rate⟩)

/-- The envelope instance as it stands after the first `k` in-range iterations
of a per-note inner loop (one `apply` per local index `0, ..., k-1`). -/
noncomputable def envAfter (wsample : ℕ → ℝ) (env : ADSREnvelope) (k : ℕ) : ADSREnvelope :=
  (List.range k).foldl (fun e i => (e.apply (wsample i) i).2) env

/-- The envelope-shaped sample the inner loop produces at local index `i`
(assuming all previous indices were in range, which holds whenever index `i`
itself is in range, since global indices grow with `i`). -/
noncomputable def processedSample (wsample : ℕ → ℝ) (env : ADSREnvelope) (i : ℕ) : ℝ :=
  ((envAfter wsample env i).apply (wsample i) i).1

/-- What one note's inner loop adds to accumulator slot `k`: the processed
sample at local index `k - start` when `k` lies in the note's in-buffer range,
and nothing otherwise (out-of-buffer contributions are silently dropped). -/
noncomputable def noteContribAt (wsample : ℕ → ℝ) (env : ADSREnvelope)
    (start cnt total k : ℕ) : ℝ :=
  if start ≤ k ∧ k - start < min cnt (total - start) then
    processedSample wsample env (k - start)
  else 0

/-- One timeline note's contribution to accumulator slot `k` in the sine
timeline strategy, with the oscillator, envelope, start sample and per-note
count built exactly as `TimelineSineOrchestrator::pcm_samples` builds them. -/
noncomputable def sineNoteContrib (o : TimelineSineOrchestrator) (sample_rate total : ℕ)
    (note : TimelineNote) (k : ℕ) : ℝ :=
  noteContribAt
    (SinOscillator.sample
      ⟨rawFrequency note.id note.octave, note.amplitude * CONDENSE_CONSTANT, sample_rate⟩)
    (ADSREnvelope.new o.attack o.decay o.sustain o.release sample_rate
      (note.duration * (60 / ((o.bpm):ℝ))))
    (fToNat (note.start_time * (60 / ((o.bpm):ℝ)) * (sample_rate:ℝ)))
    (fToNat ((note.duration + o.release) * (60 / ((o.bpm):ℝ)) * (sample_rate:ℝ)))
    total k

theorem fToNat_lt_iff {x : ℝ} (hx : 0 ≤ x) {n : ℕ} : fToNat x < n ↔ x < n := by
  unfold fToNat
  rw [Int.toNat_lt (Int.floor_nonneg.mpr hx), Int.floor_lt]
  norm_num

theorem lt_fToNat_iff {y : ℝ} {n : ℕ} : n < fToNat y ↔ (n:ℝ) + 1 ≤ y := by
  unfold fToNat
  rw [Int.lt_toNat, Int.lt_iff_add_one_le, Int.le_floor]
  push_cast
  rfl

theorem fToNat_le_ceil_toNat {x : ℝ} : fToNat x ≤ (⌈x⌉).toNat := by
  unfold fToNat
  exact Int.toNat_le_toNat (Int.floor_le_ceil x)

theorem validate_note_ok_iff (n : Note) :
    validate_note n = .ok () ↔
      (n.id ≤ 11 ∧ n.octave ≤ 8 ∧ 0 ≤ n.amplitude ∧ n.amplitude ≤ 1) := by
  unfold validate_note
  split_ifs with h1 h2 h3
  · simp only [reduceCtorEq, false_iff]
    rintro ⟨ha, -⟩; omega
  · simp only [reduceCtorEq, false_iff]
    rintro ⟨-, hb, -⟩; omega
  · simp only [reduceCtorEq, false_iff]
    rintro ⟨-, -, hc, hd⟩
    rcases h3 with h | h <;> linarith
  · push_neg at h3
    simp only [true_iff]
    exact ⟨by omega, by omega, h3.1, h3.2⟩

theorem validateNoteList_ok_iff (notes : List Note) :
    validateNoteList notes = .ok () ↔ ∀ n ∈ notes, validate_note n = .ok () := by
  induction notes with
  | nil => simp [validateNoteList]
  | cons note rest ih =>
    unfold validateNoteList
    cases h : validate_note note with
    | error e => simp [h]
    | ok u => cases u; simp [h, ih]

theorem validate_notes_ok_iff (notes : List Note) :
    validate_notes notes = .ok () ↔
      (notes ≠ [] ∧ ∀ n ∈ notes,
        n.id ≤ 11 ∧ n.octave ≤ 8 ∧ 0 ≤ n.amplitude ∧ n.amplitude ≤ 1) := by
  unfold validate_notes
  split_ifs with h
  · simp only [reduceCtorEq, false_iff]
    rintro ⟨hne, -⟩
    exact hne (List.isEmpty_iff.mp h)
  · rw [validateNoteList_ok_iff]
    constructor
    · intro hall
      exact ⟨fun hnil => h (by simp [hnil]), fun n hn => (validate_note_ok_iff n).mp (hall n hn)⟩
    · rintro ⟨-, hall⟩
      exact fun n hn => (validate_note_ok_iff n).mpr (hall n hn)

theorem validate_timeline_note_ok_iff (n : TimelineNote) :
    validate_timeline_note n = .ok () ↔
      (n.id ≤ 11 ∧ n.octave ≤ 8 ∧ 0 ≤ n.amplitude ∧ n.amplitude ≤ 1) := by
  unfold validate_timeline_note
  split_ifs with h1 h2 h3
  · simp only [reduceCtorEq, false_iff]
    rintro ⟨ha, -⟩; omega
  · simp only [reduceCtorEq, false_iff]
    rintro ⟨-, hb, -⟩; omega
  · simp only [reduceCtorEq, false_iff]
    rintro ⟨-, -, hc, hd⟩
    rcases h3 with h | h <;> linarith
  · push_neg at h3
    simp only [true_iff]
    exact ⟨by omega, by omega, h3.1, h3.2⟩

theorem validateTimelineNoteList_ok_iff (notes : List TimelineNote) :
    validateTimelineNoteList notes = .ok () ↔
      ∀ n ∈ notes, validate_timeline_note n = .ok () := by
  induction notes with
  | nil => simp [validateTimelineNoteList]
  | cons note rest ih =>
    unfold validateTimelineNoteList
    cases h : validate_timeline_note note with
    | error e => simp [h]
    | ok u => cases u; simp [h, ih]

theorem validate_timeline_notes_ok_iff (notes : List TimelineNote) :
    validate_timeline_notes notes = .ok () ↔
      (notes ≠ [] ∧ ∀ n ∈ notes,
        n.id ≤ 11 ∧ n.octave ≤ 8 ∧ 0 ≤ n.amplitude ∧ n.amplitude ≤ 1) := by
  unfold validate_timeline_notes
  split_ifs with h
  · simp only [reduceCtorEq, false_iff]
    rintro ⟨hne, -⟩
    exact hne (List.isEmpty_iff.mp h)
  · rw [validateTimelineNoteList_ok_iff]
    constructor
    · intro hall
      exact ⟨fun hnil => h (by simp [hnil]),
        fun n hn => (validate_timeline_note_ok_iff n).mp (hall n hn)⟩
    · rintro ⟨-, hall⟩
      exact fun n hn => (validate_timeline_note_ok_iff n).mpr (hall n hn)

theorem validateControlPointValues_ok_iff (idx : ℕ) (pts : List ℝ) :
    validateControlPointValues idx pts = .ok () ↔ ∀ p ∈ pts, -1 ≤ p ∧ p ≤ 1 := by
  induction pts generalizing idx with
  | nil => simp [validateControlPointValues]
  | cons p rest ih =>
    unfold validateControlPointValues
    split_ifs with h
    · simp only [reduceCtorEq, false_iff]
      intro hall
      rcases hall p (by simp) with ⟨h1, h2⟩
      rcases h with h | h <;> linarith
    · push_neg at h
      rw [ih (idx + 1)]
      constructor
      · intro hall q hq
        rcases List.mem_cons.mp hq with rfl | hq'
        · exact ⟨h.1, h.2⟩
        · exact hall q hq'
      · intro hall q hq
        exact hall q (by simp [hq])

theorem validate_control_points_ok_iff (pts : List ℝ) :
    validate_control_points pts = .ok () ↔
      (pts.length = 4 ∧ ∀ p ∈ pts, -1 ≤ p ∧ p ≤ 1) := by
  unfold validate_control_points
  split_ifs with h
  · simp only [reduceCtorEq, false_iff]
    rintro ⟨h4, -⟩
    exact h h4
  · push_neg at h
    rw [validateControlPointValues_ok_iff]
    simp [h]

theorem Note.frequency_ok {n : Note} (h : n.id ≤ 11) :
    n.frequency = .ok (rawFrequency n.id n.octave) := by
  unfold Note.frequency
  rw [if_neg (by omega)]

theorem timelineNote_frequency_ok {n : TimelineNote} (h : n.id ≤ 11) :
    n.frequency = .ok (rawFrequency n.id n.octave) := by
  unfold TimelineNote.frequency
  rw [if_neg (by omega)]

theorem rawFrequency_A4 : rawFrequency 9 4 = 440 := by
  unfold rawFrequency
  norm_num

theorem sinePcmNotes_ok (bpm sample_rate : ℕ) (notes : List Note)
    (h : ∀ n ∈ notes, n.id ≤ 11) :
    sinePcmNotes bpm sample_rate notes = .ok (notes.flatMap (seqNoteBlock bpm sample_rate)) := by
  induction notes with
  | nil => simp [sinePcmNotes]
  | cons note rest ih =>
    have hid : note.id ≤ 11 := h note (by simp)
    rw [sinePcmNotes, Note.frequency_ok hid, ih (fun n hn => h n (by simp [hn]))]
    simp [seqNoteBlock]

theorem bezierPcmNotes_ok (bpm sample_rate : ℕ) (cps : List ℝ) (notes : List Note)
    (h : ∀ n ∈ notes, n.id ≤ 11) (hcps : validate_control_points cps = .ok ()) :
    ∃ l, bezierPcmNotes bpm sample_rate cps notes = .ok l := by
  induction notes with
  | nil => exact ⟨[], by simp [bezierPcmNotes]⟩
  | cons note rest ih =>
    have hid : note.id ≤ 11 := h note (by simp)
    rcases ih (fun n hn => h n (by simp [hn])) with ⟨l, hl⟩
    have hb : BezierOscillator.new (rawFrequency note.id note.octave) note.amplitude
        sample_rate cps = .ok ⟨rawFrequency note.id note.octave, note.amplitude,
          sample_rate, cps⟩ := by
      unfold BezierOscillator.new
      rw [hcps]
    rw [bezierPcmNotes, Note.frequency_ok hid]
    simp only [hb, hl]
    exact ⟨_, rfl⟩

theorem ADSREnvelope.apply_fields (e : ADSREnvelope) (s : ℝ) (i : ℕ) :
    (e.apply s i).2.attack = e.attack ∧ (e.apply s i).2.decay = e.decay
    ∧ (e.apply s i).2.sustain = e.sustain ∧ (e.apply s i).2.release = e.release
    ∧ (e.apply s i).2.sample_rate = e.sample_rate
    ∧ (e.apply s i).2.raw_duration_in_seconds = e.raw_duration_in_seconds := by
  unfold ADSREnvelope.apply
  cases h : e.determine_state i <;> simp [h]

theorem envAfter_zero (wsample : ℕ → ℝ) (env : ADSREnvelope) : envAfter wsample env 0 = env := by
  simp [envAfter]

theorem envAfter_succ (wsample : ℕ → ℝ) (env : ADSREnvelope) (k : ℕ) :
    envAfter wsample env (k + 1) = ((envAfter wsample env k).apply (wsample k) k).2 := by
  unfold envAfter
  rw [List.range_succ, List.foldl_append]
  simp

theorem envAfter_fields (wsample : ℕ → ℝ) (env : ADSREnvelope) (k : ℕ) :
    (envAfter wsample env k).attack = env.attack
    ∧ (envAfter wsample env k).decay = env.decay
    ∧ (envAfter wsample env k).sustain = env.sustain
    ∧ (envAfter wsample env k).release = env.release
    ∧ (envAfter wsample env k).sample_rate = env.sample_rate
    ∧ (envAfter wsample env k).raw_duration_in_seconds = env.raw_duration_in_seconds := by
  induction k with
  | zero => simp [envAfter_zero]
  | succ k ih =>
    obtain ⟨h1, h2, h3, h4, h5, h6⟩ := ih
    obtain ⟨g1, g2, g3, g4, g5, g6⟩ :=
      ADSREnvelope.apply_fields (envAfter wsample env k) (wsample k) k
    rw [envAfter_succ]
    exact ⟨g1.trans h1, g2.trans h2, g3.trans h3, g4.trans h4, g5.trans h5, g6.trans h6⟩

theorem getD_set_eq (l : List ℝ) (i : ℕ) (a : ℝ) (h : i < l.length) :
    (l.set i a).getD i 0 = a := by
  simp [List.getD_eq_getElem?_getD, List.getElem?_set_self', h]

theorem getD_set_ne (l : List ℝ) (i j : ℕ) (a : ℝ) (h : i ≠ j) :
    (l.set i a).getD j 0 = l.getD j 0 := by
  simp [List.getD_eq_getElem?_getD, List.getElem?_set_ne h]

theorem getD_replicate_zero (n k : ℕ) : (List.replicate n (0:ℝ)).getD k 0 = 0 := by
  rw [List.getD_eq_getElem?_getD, List.getElem?_replicate]
  split <;> simp

theorem eq_range_map {l : List ℝ} {total : ℕ} {g : ℕ → ℝ} (hlen : l.length = total)
    (hget : ∀ k, k < total → l.getD k 0 = g k) : l = (List.range total).map g := by
  apply List.ext_getElem
  · simp [hlen]
  · intro i h1 h2
    have h3 := hget i (by omega)
    rw [List.getD_eq_getElem?_getD, List.getElem?_eq_getElem h1] at h3
    simpa using h3

theorem noteStep_fold_spec (wsample : ℕ → ℝ) (env : ADSREnvelope) (start total : ℕ)
    (acc : List ℝ) (hacc : acc.length = total) (n : ℕ) :
    ((List.range n).foldl (noteStep wsample start total) (env, acc)).2.length = total
    ∧ ((List.range n).foldl (noteStep wsample start total) (env, acc)).1
        = envAfter wsample env (min n (total - start))
    ∧ ∀ k, ((List.range n).foldl (noteStep wsample start total) (env, acc)).2.getD k 0
        = acc.getD k 0 + (if start ≤ k ∧ k - start < min n (total - start)
            then processedSample wsample env (k - start) else 0) := by
  induction n with
  | zero =>
    refine ⟨by simpa using hacc, by simp [envAfter_zero], fun k => ?_⟩
    have : ¬(start ≤ k ∧ k - start < min 0 (total - start)) := by omega
    simp [this]
  | succ n ih =>
    obtain ⟨ihlen, ihenv, ihget⟩ := ih
    rw [List.range_succ, List.foldl_append, List.foldl_cons, List.foldl_nil]
    by_cases h : start + n < total
    · have hm : min n (total - start) = n := by omega
      have hm' : min (n + 1) (total - start) = n + 1 := by omega
      rw [noteStep, if_pos h]
      refine ⟨by simpa using ihlen, ?_, fun k => ?_⟩
      · show (_ : ℝ × ADSREnvelope).2 = _
        rw [ihenv, hm, hm', envAfter_succ]
      · by_cases hk : k = start + n
        · subst hk
          rw [getD_set_eq _ _ _ (by omega)]
        
          rw [ihget, ihenv, hm, hm']
          have hold : ¬(start ≤ start + n ∧ start + n - start < n) := by omega
          have hnew : start ≤ start + n ∧ start + n - start < n + 1 := by omega
          rw [if_neg hold, if_pos hnew]
          have : start + n - start = n := by omega
          rw [this, add_zero, processedSample]
        · rw [getD_set_ne _ _ _ _ (Ne.symm hk), ihget, hm, hm']
          have hiff : (start ≤ k ∧ k - start < n) ↔ (start ≤ k ∧ k - start < n + 1) := by
            omega
          rw [if_congr hiff rfl rfl]
    · have hm : min (n + 1) (total - start) = min n (total - start) := by omega
      rw [noteStep, if_neg h]
      exact ⟨ihlen, by rw [ihenv, hm], fun k => by rw [ihget, hm]⟩

theorem mixNote_spec (wsample : ℕ → ℝ) (env : ADSREnvelope) (start cnt total : ℕ)
    (acc : List ℝ) (hacc : acc.length = total) :
    (mixNote wsample start cnt total env acc).length = total
    ∧ ∀ k, (mixNote wsample start cnt total env acc).getD k 0
        = acc.getD k 0 + noteContribAt wsample env start cnt total k := by
  obtain ⟨h1, _h2, h3⟩ := noteStep_fold_spec wsample env start total acc hacc cnt
  refine ⟨h1, fun k => ?_⟩
  rw [mixNote, h3 k, noteContribAt]

theorem TimelineSineOrchestrator.mixAll_spec (o : TimelineSineOrchestrator)
    (sample_rate total : ℕ) (notes : List TimelineNote) (acc : List ℝ)
    (hacc : acc.length = total) (hids : ∀ nt ∈ notes, nt.id ≤ 11) :
    ∃ res, o.mixAll sample_rate total notes acc = .ok res
      ∧ res.length = total
      ∧ ∀ k, res.getD k 0 = acc.getD k 0
          + (notes.map (fun nt => sineNoteContrib o sample_rate total nt k)).sum := by
  induction notes generalizing acc with
  | nil => exact ⟨acc, by rw [TimelineSineOrchestrator.mixAll], hacc, by simp⟩
  | cons note rest ih =>
    have hid : note.id ≤ 11 := hids note (by simp)
    obtain ⟨hlen', hget'⟩ := mixNote_spec
      (SinOscillator.sample
        ⟨rawFrequency note.id note.octave, note.amplitude * CONDENSE_CONSTANT, sample_rate⟩)
      (ADSREnvelope.new o.attack o.decay o.sustain o.release sample_rate
        (note.duration * (60 / ((o.bpm):ℝ))))
      (fToNat (note.start_time * (60 / ((o.bpm):ℝ)) * (sample_rate:ℝ)))
      (fToNat ((note.duration + o.release) * (60 / ((o.bpm):ℝ)) * (sample_rate:ℝ)))
      total acc hacc
    obtain ⟨res, hres, hreslen, hresget⟩ := ih _ hlen' (fun n hn => hids n (by simp [hn]))
    refine ⟨res, ?_, hreslen, fun k => ?_⟩
    · rw [TimelineSineOrchestrator.mixAll, timelineNote_frequency_ok hid]
      exact hres
    · rw [hresget k, hget' k, List.map_cons, List.sum_cons, sineNoteContrib]
      ring

theorem TimelineSineOrchestrator.pcm_spec (o : TimelineSineOrchestrator) (sample_rate : ℕ)
    (hids : ∀ nt ∈ o.notes, nt.id ≤ 11) :
    o.pcm_samples sample_rate = .ok ((List.range (o.total_samples sample_rate)).map
      (fun k => fToInt (Real.tanh
        ((o.notes.map
          (fun nt => sineNoteContrib o sample_rate (o.total_samples sample_rate) nt k)).sum)
        * TIMELINE_PCM_BIT_RANGE))) := by
  obtain ⟨res, hres, hlen, hget⟩ := o.mixAll_spec sample_rate (o.total_samples sample_rate)
    o.notes (List.replicate (o.total_samples sample_rate) 0) (by simp) hids
  have hresform : res = (List.range (o.total_samples sample_rate)).map
      (fun k => (o.notes.map
        (fun nt => sineNoteContrib o sample_rate (o.total_samples sample_rate) nt k)).sum) := by
    refine eq_range_map hlen (fun k _ => ?_)
    rw [hget k, getD_replicate_zero, zero_add]
  rw [TimelineSineOrchestrator.pcm_samples]
  simp only [hres, hresform, List.map_map]
  rfl

theorem TimelineBezierOrchestrator.mixAll_ok (o : TimelineBezierOrchestrator)
    (sample_rate total : ℕ) (notes : List TimelineNote) (acc : List ℝ)
    (hids : ∀ nt ∈ notes, nt.id ≤ 11)
    (hcps : validate_control_points o.control_points = .ok ()) :
    ∃ res, o.mixAll sample_rate total notes acc = .ok res := by
  induction notes generalizing acc with
  | nil => exact ⟨acc, by rw [TimelineBezierOrchestrator.mixAll]⟩
  | cons note rest ih =>
    have hid : note.id ≤ 11 := hids note (by simp)
    have hb : BezierOscillator.new (rawFrequency note.id note.octave)
        (note.amplitude * CONDENSE_CONSTANT) sample_rate o.control_points
        = .ok ⟨rawFrequency note.id note.octave, note.amplitude * CONDENSE_CONSTANT,
            sample_rate, o.control_points⟩ := by
      unfold BezierOscillator.new
      rw [hcps]
    obtain ⟨res, hres⟩ := ih _ (fun n hn => hids n (by simp [hn]))
    refine ⟨res, ?_⟩
    rw [TimelineBezierOrchestrator.mixAll, timelineNote_frequency_ok hid]
    simp only [hb]
    exact hres

theorem TimelineBezierOrchestrator.pcm_ok (o : TimelineBezierOrchestrator) (sample_rate : ℕ)
    (hids : ∀ nt ∈ o.notes, nt.id ≤ 11)
    (hcps : validate_control_points o.control_points = .ok ()) :
    ∃ l, o.pcm_samples sample_rate = .ok l := by
  obtain ⟨res, hres⟩ := o.mixAll_ok sample_rate (o.total_samples sample_rate) o.notes
    (List.replicate (o.total_samples sample_rate) 0) hids hcps
  rw [TimelineBezierOrchestrator.pcm_samples]
  simp only [hres]
  exact ⟨_, rfl⟩

theorem flatMap_i16le_length (samples : List ℤ) :
    (samples.flatMap i16le).length = 2 * samples.length := by
  induction samples with
  | nil => simp
  | cons s rest ih =>
    simp only [List.flatMap_cons, List.length_append, ih, List.length_cons, i16le, u16le]
    simp
    omega

theorem wav_write_parse (samples : List ℤ) (sample_rate : ℕ) :
    (wav_write samples sample_rate).length = 44 + 2 * samples.length
    ∧ (wav_write samples sample_rate).take 4 = [82, 73, 70, 70]
    ∧ rd32 (wav_write samples sample_rate) 4
        = (36 + samples.length % 2 ^ 32 * 2 % 2 ^ 32) % 2 ^ 32
    ∧ ((wav_write samples sample_rate).drop 8).take 4 = [87, 65, 86, 69]
    ∧ ((wav_write samples sample_rate).drop 12).take 4 = [102, 109, 116, 32]
    ∧ rd32 (wav_write samples sample_rate) 16 = 16
    ∧ rd16 (wav_write samples sample_rate) 20 = 1
    ∧ rd16 (wav_write samples sample_rate) 22 = 1
    ∧ rd32 (wav_write samples sample_rate) 24 = sample_rate % 2 ^ 32
    ∧ rd16 (wav_write samples sample_rate) 32 = 2
    ∧ rd16 (wav_write samples sample_rate) 34 = 16
    ∧ ((wav_write samples sample_rate).drop 36).take 4 = [100, 97, 116, 97]
    ∧ rd32 (wav_write samples sample_rate) 40 = samples.length % 2 ^ 32 * 2 % 2 ^ 32
    ∧ (wav_write samples sample_rate).drop 44 = samples.flatMap i16le := by
  refine ⟨?_, ?_, ?_, ?_, ?_, ?_, ?_, ?_, ?_, ?_, ?_, ?_, ?_, ?_⟩ <;>
    simp only [wav_write, u32le, u16le, rd16, rd32, List.cons_append, List.nil_append,
      List.getD_cons_zero, List.getD_cons_succ, List.take_succ_cons, List.take_zero,
      List.drop_succ_cons, List.drop_zero, List.length_cons, List.length_append,
      flatMap_i16le_length, Nat.reduceDiv] <;>
    omega

theorem validate_bpm_ok_iff (bpm : ℕ) : validate_bpm bpm = .ok () ↔ bpm ≠ 0 := by
  unfold validate_bpm
  split_ifs with h <;> simp [h]

theorem Orchestrator.new_ok_iff (bpm : ℕ) (notes : List Note) (cps : Option (List ℝ)) :
    (∃ o, Orchestrator.new bpm notes cps = .ok o) ↔
      (bpm ≠ 0 ∧ notes ≠ []
        ∧ (∀ n ∈ notes, n.id ≤ 11 ∧ n.octave ≤ 8 ∧ 0 ≤ n.amplitude ∧ n.amplitude ≤ 1)
        ∧ ∀ pts ∈ cps, pts.length = 4 ∧ ∀ p ∈ pts, -1 ≤ p ∧ p ≤ 1) := by
  by_cases hbpm : bpm = 0
  · subst hbpm
    simp [Orchestrator.new, validate_bpm]
  · have hb : validate_bpm bpm = .ok () := (validate_bpm_ok_iff bpm).mpr hbpm
    cases hn : validate_notes notes with
    | error e =>
      have hnew : Orchestrator.new bpm notes cps = .error e := by
        unfold Orchestrator.new
        rw [hb, hn]
      constructor
      · rintro ⟨o, ho⟩
        rw [hnew] at ho
        exact absurd ho (by simp)
      · rintro ⟨-, hne, hall, -⟩
        rw [(validate_notes_ok_iff notes).mpr ⟨hne, hall⟩] at hn
        exact absurd hn (by simp)
    | ok u =>
      cases u
      obtain ⟨hne, hall⟩ := (validate_notes_ok_iff notes).mp hn
      cases cps with
      | none =>
        have hnew : Orchestrator.new bpm notes none = .ok (.Sine ⟨bpm, notes⟩) := by
          unfold Orchestrator.new
          rw [hb, hn]
        exact ⟨fun _ => ⟨hbpm, hne, hall, by simp⟩, fun _ => ⟨_, hnew⟩⟩
      | some pts =>
        cases hc : validate_control_points pts with
        | error e =>
          have hnew : Orchestrator.new bpm notes (some pts) = .error e := by
            unfold Orchestrator.new
            simp only [hb, hn, hc]
          constructor
          · rintro ⟨o, ho⟩
            rw [hnew] at ho
            exact absurd ho (by simp)
          · rintro ⟨-, -, -, hcp⟩
            obtain ⟨h4, hrange⟩ := hcp pts (by simp)
            rw [(validate_control_points_ok_iff pts).mpr ⟨h4, hrange⟩] at hc
            exact absurd hc (by simp)
        | ok u2 =>
          cases u2
          obtain ⟨h4, hrange⟩ := (validate_control_points_ok_iff pts).mp hc
          have hnew : Orchestrator.new bpm notes (some pts)
              = .ok (.Bezier ⟨bpm, notes, pts⟩) := by
            unfold Orchestrator.new
            simp only [hb, hn, hc]
          refine ⟨fun _ => ⟨hbpm, hne, hall, fun q hq => ?_⟩, fun _ => ⟨_, hnew⟩⟩
          have hqe : pts = q := by simpa using hq
          subst hqe
          exact ⟨h4, hrange⟩

theorem timelineOrchestrator_new_ok_iff (bpm : ℕ) (notes : List TimelineNote)
    (cps : Option (List ℝ)) (adsr : Option (ℝ × ℝ × ℝ × ℝ)) :
    (∃ o, TimelineOrchestrator.new bpm notes cps adsr = .ok o) ↔
      (bpm ≠ 0 ∧ notes ≠ []
        ∧ (∀ n ∈ notes, n.id ≤ 11 ∧ n.octave ≤ 8 ∧ 0 ≤ n.amplitude ∧ n.amplitude ≤ 1)
        ∧ ∀ pts ∈ cps, pts.length = 4 ∧ ∀ p ∈ pts, -1 ≤ p ∧ p ≤ 1) := by
  by_cases hbpm : bpm = 0
  · subst hbpm
    simp [TimelineOrchestrator.new, validate_bpm]
  · have hb : validate_bpm bpm = .ok () := (validate_bpm_ok_iff bpm).mpr hbpm
    cases hn : validate_timeline_notes notes with
    | error e =>
      have hnew : TimelineOrchestrator.new bpm notes cps adsr = .error e := by
        unfold TimelineOrchestrator.new
        rw [hb, hn]
      constructor
      · rintro ⟨o, ho⟩
        rw [hnew] at ho
        exact absurd ho (by simp)
      · rintro ⟨-, hne, hall, -⟩
        rw [(validate_timeline_notes_ok_iff notes).mpr ⟨hne, hall⟩] at hn
        exact absurd hn (by simp)
    | ok u =>
      cases u
      obtain ⟨hne, hall⟩ := (validate_timeline_notes_ok_iff notes).mp hn
      cases cps with
      | none =>
        have hnew : TimelineOrchestrator.new bpm notes none adsr
            = .ok (.Sine ⟨bpm, notes, (adsr.getD (0, 0, 1, 0)).1, (adsr.getD (0, 0, 1, 0)).2.1,
                (adsr.getD (0, 0, 1, 0)).2.2.1, (adsr.getD (0, 0, 1, 0)).2.2.2⟩) := by
          unfold TimelineOrchestrator.new
          rw [hb, hn]
        exact ⟨fun _ => ⟨hbpm, hne, hall, by simp⟩, fun _ => ⟨_, hnew⟩⟩
      | some pts =>
        cases hc : validate_control_points pts with
        | error e =>
          have hnew : TimelineOrchestrator.new bpm notes (some pts) adsr = .error e := by
            unfold TimelineOrchestrator.new
            simp only [hb, hn, hc]
          constructor
          · rintro ⟨o, ho⟩
            rw [hnew] at ho
            exact absurd ho (by simp)
          · rintro ⟨-, -, -, hcp⟩
            obtain ⟨h4, hrange⟩ := hcp pts (by simp)
            rw [(validate_control_points_ok_iff pts).mpr ⟨h4, hrange⟩] at hc
            exact absurd hc (by simp)
        | ok u2 =>
          cases u2
          obtain ⟨h4, hrange⟩ := (validate_control_points_ok_iff pts).mp hc
          have hnew : TimelineOrchestrator.new bpm notes (some pts) adsr
              = .ok (.Bezier ⟨bpm, notes, pts, (adsr.getD (0, 0, 1, 0)).1,
                  (adsr.getD (0, 0, 1, 0)).2.1, (adsr.getD (0, 0, 1, 0)).2.2.1,
                  (adsr.getD (0, 0, 1, 0)).2.2.2⟩) := by
            unfold TimelineOrchestrator.new
            simp only [hb, hn, hc]
          refine ⟨fun _ => ⟨hbpm, hne, hall, fun q hq => ?_⟩, fun _ => ⟨_, hnew⟩⟩
          have hqe : pts = q := by simpa using hq
          subst hqe
          exact ⟨h4, hrange⟩

theorem Orchestrator.new_pcm_ok (bpm : ℕ) (notes : List Note) (cps : Option (List ℝ))
    (o : Orchestrator) (h : Orchestrator.new bpm notes cps = .ok o) (rate : ℕ) :
    ∃ l, o.pcm_samples rate = .ok l := by
  unfold Orchestrator.new at h
  cases hb : validate_bpm bpm with
  | error e => simp only [hb, reduceCtorEq] at h
  | ok u =>
    cases u
    simp only [hb] at h
    cases hn : validate_notes notes with
    | error e => simp only [hn, reduceCtorEq] at h
    | ok u2 =>
      cases u2
      simp only [hn] at h
      have hids : ∀ n ∈ notes, n.id ≤ 11 := fun n hmem =>
        (((validate_notes_ok_iff notes).mp hn).2 n hmem).1
      cases cps with
      | none =>
        simp only [Except.ok.injEq] at h
        subst h
        exact ⟨notes.flatMap (seqNoteBlock bpm rate),
          sinePcmNotes_ok bpm rate notes hids⟩
      | some pts =>
        cases hc : validate_control_points pts with
        | error e => simp only [hc, reduceCtorEq] at h
        | ok u3 =>
          cases u3
          simp only [hc, Except.ok.injEq] at h
          subst h
          obtain ⟨l, hl⟩ := bezierPcmNotes_ok bpm rate pts notes hids hc
          exact ⟨l, hl⟩

theorem timelineOrchestrator_new_pcm_ok (bpm : ℕ) (notes : List TimelineNote)
    (cps : Option (List ℝ)) (adsr : Option (ℝ × ℝ × ℝ × ℝ))
    (o : TimelineOrchestrator) (h : TimelineOrchestrator.new bpm notes cps adsr = .ok o)
    (rate : ℕ) : ∃ l, o.pcm_samples rate = .ok l := by
  unfold TimelineOrchestrator.new at h
  cases hb : validate_bpm bpm with
  | error e => simp only [hb, reduceCtorEq] at h
  | ok u =>
    cases u
    simp only [hb] at h
    cases hn : validate_timeline_notes notes with
    | error e => simp only [hn, reduceCtorEq] at h
    | ok u2 =>
      cases u2
      simp only [hn] at h
      have hids : ∀ n ∈ notes, n.id ≤ 11 := fun n hmem =>
        (((validate_timeline_notes_ok_iff notes).mp hn).2 n hmem).1
      cases cps with
      | none =>
        simp only [Except.ok.injEq] at h
        subst h
        exact ⟨_, TimelineSineOrchestrator.pcm_spec _ rate hids⟩
      | some pts =>
        cases hc : validate_control_points pts with
        | error e => simp only [hc, reduceCtorEq] at h
        | ok u3 =>
          cases u3
          simp only [hc, Except.ok.injEq] at h
          subst h
          have hc2 : validate_control_points pts = .ok () := hc
          obtain ⟨l, hl⟩ := TimelineBezierOrchestrator.pcm_ok
            ⟨bpm, notes, pts, (adsr.getD (0, 0, 1, 0)).1, (adsr.getD (0, 0, 1, 0)).2.1,
              (adsr.getD (0, 0, 1, 0)).2.2.1, (adsr.getD (0, 0, 1, 0)).2.2.2⟩ rate hids hc2
          exact ⟨l, hl⟩

theorem ADSREnvelope.determine_state_release_iff (e : ADSREnvelope) (n : ℕ)
    (hT : 0 ≤ e.raw_duration_in_seconds * ((e.sample_rate):ℝ)) :
    e.determine_state n = .Release ↔
      e.raw_duration_in_seconds * ((e.sample_rate):ℝ) < (n:ℝ) := by
  rw [← fToNat_lt_iff hT]
  unfold ADSREnvelope.determine_state
  split_ifs with h1 h2 h3 <;> simp_all

theorem ADSREnvelope.determine_state_attack_iff (e : ADSREnvelope) (n : ℕ)
    (hrel : e.determine_state n ≠ .Release) :
    e.determine_state n = .Attack ↔ (n:ℝ) + 1 ≤ e.attack * ((e.sample_rate):ℝ) := by
  rw [← lt_fToNat_iff]
  unfold ADSREnvelope.determine_state at *
  split_ifs at * with h1 h2 h3 <;> simp_all

theorem ADSREnvelope.determine_state_decay_iff (e : ADSREnvelope) (n : ℕ)
    (hrel : e.determine_state n ≠ .Release) (hatt : e.determine_state n ≠ .Attack) :
    e.determine_state n = .Decay ↔
      (n:ℝ) + 1 ≤ (e.attack + e.decay) * ((e.sample_rate):ℝ) := by
  rw [← lt_fToNat_iff]
  unfold ADSREnvelope.determine_state at *
  split_ifs at * with h1 h2 h3 <;> simp_all

theorem ADSREnvelope.determine_state_sustain_of (e : ADSREnvelope) (n : ℕ)
    (hrel : e.determine_state n ≠ .Release) (hatt : e.determine_state n ≠ .Attack)
    (hdec : e.determine_state n ≠ .Decay) : e.determine_state n = .Sustain := by
  cases h : e.determine_state n <;> simp_all

theorem ADSREnvelope.apply_of_attack (e : ADSREnvelope) (s : ℝ) (n : ℕ)
    (h : e.determine_state n = .Attack) :
    e.apply s n = (s * ((n:ℝ) / (e.attack * ((e.sample_rate):ℝ))),
      { e with current_state := .Attack,
               current_factor := (n:ℝ) / (e.attack * ((e.sample_rate):ℝ)) }) := by
  unfold ADSREnvelope.apply
  rw [h]

theorem ADSREnvelope.apply_of_decay (e : ADSREnvelope) (s : ℝ) (n : ℕ)
    (h : e.determine_state n = .Decay) :
    e.apply s n = (s * (1 - (1 - e.sustain) * (((n:ℝ) - e.attack * ((e.sample_rate):ℝ))
        / (e.decay * ((e.sample_rate):ℝ)))),
      { e with current_state := .Decay,
               current_factor := 1 - (1 - e.sustain) * (((n:ℝ) - e.attack * ((e.sample_rate):ℝ))
                 / (e.decay * ((e.sample_rate):ℝ))) }) := by
  unfold ADSREnvelope.apply
  rw [h]

theorem ADSREnvelope.apply_of_sustain (e : ADSREnvelope) (s : ℝ) (n : ℕ)
    (h : e.determine_state n = .Sustain) :
    e.apply s n = (s * e.sustain,
      { e with current_state := .Sustain, current_factor := e.sustain }) := by
  unfold ADSREnvelope.apply
  rw [h]

theorem ADSREnvelope.apply_of_release (e : ADSREnvelope) (s : ℝ) (n : ℕ)
    (h : e.determine_state n = .Release) :
    e.apply s n = (s * (e.current_factor
        * (1 - ((n:ℝ) - e.raw_duration_in_seconds * ((e.sample_rate):ℝ))
            / (e.release * ((e.sample_rate):ℝ)))),
      { e with current_state := .Release,
               current_factor := e.current_factor
                 * (1 - ((n:ℝ) - e.raw_duration_in_seconds * ((e.sample_rate):ℝ))
                     / (e.release * ((e.sample_rate):ℝ))) }) := by
  unfold ADSREnvelope.apply
  rw [h]

/-- Claim C5: for a note with chromatic id `i` and octave `o`, `frequency()`
returns `Ok(440 * 2^((i - 9 + 12*(o - 4)) / 12))` when `i ≤ 11` (in particular
exactly 440 for i = 9, o = 4) and `Err(InvalidNoteId i)` iff `i > 11`; the
function is a pure function of the note's fields (the embedding of
`Note::frequency` / `TimelineNote::frequency` is stateless by construction). -/
theorem c5_pitch_model (n : Note) (t : TimelineNote) :
    (n.id ≤ 11 → n.frequency
      = .ok (440 * (2:ℝ) ^ ((((n.id):ℝ) - 9 + 12 * (((n.octave):ℝ) - 4)) / 12)))
    ∧ (11 < n.id → n.frequency = .error (.InvalidNoteId n.id))
    ∧ (t.id ≤ 11 → t.frequency
      = .ok (440 * (2:ℝ) ^ ((((t.id):ℝ) - 9 + 12 * (((t.octave):ℝ) - 4)) / 12)))
    ∧ (11 < t.id → t.frequency = .error (.InvalidNoteId t.id))
    ∧ Note.frequency ⟨9, 4, 1, 1⟩ = .ok 440 := by
  refine ⟨fun h => ?_, fun h => ?_, fun h => ?_, fun h => ?_, ?_⟩
  · rw [Note.frequency_ok h]
    rfl
  · unfold Note.frequency
    rw [if_pos (by omega)]
  · rw [timelineNote_frequency_ok h]
    rfl
  · unfold TimelineNote.frequency
    rw [if_pos (by omega)]
  · rw [Note.frequency_ok (by norm_num), rawFrequency_A4]

/-- Witness for C5 at a concrete in-range and a concrete out-of-range note. -/
theorem c5_witness :
    Note.frequency ⟨9, 4, 1, 1⟩
      = .ok (440 * (2:ℝ) ^ ((((9:ℕ):ℝ) - 9 + 12 * (((4:ℕ):ℝ) - 4)) / 12))
    ∧ Note.frequency ⟨12, 4, 1, 1⟩ = .error (.InvalidNoteId 12) :=
  ⟨(c5_pitch_model ⟨9, 4, 1, 1⟩ ⟨0, 0, 0, 1, 1⟩).1 (by norm_num),
   (c5_pitch_model ⟨12, 4, 1, 1⟩ ⟨0, 0, 0, 1, 1⟩).2.1 (by norm_num)⟩

/-- Counterexample to claim C6 as stated: `frequency(id+12, octave)` never
equals `frequency(id, octave+1)` on valid ids, because the id guard rejects
every id above 11, so the left-hand call returns `Err(InvalidNoteId)` while
the right-hand call succeeds; here at id = 9, octave = 4. -/
theorem c6_counterexample :
    Note.frequency ⟨9 + 12, 4, 1, 1⟩ ≠ Note.frequency ⟨9, 5, 1, 1⟩ := by
  rw [Note.frequency_ok (show (⟨9, 5, 1, 1⟩ : Note).id ≤ 11 by norm_num)]
  unfold Note.frequency
  rw [if_pos (by norm_num)]
  simp

/-- Claim C6 (amended): octave equivalence holds for the unguarded frequency
formula — `rawFrequency (i+12) o = rawFrequency i (o+1)` — and
`frequency(9, 4)` is exactly `Ok 440`; the guarded `frequency` itself rejects
`i + 12` as an invalid id rather than returning the next octave's
frequency. -/
theorem c6_amended (i o : ℕ) (b a : ℝ) :
    rawFrequency (i + 12) o = rawFrequency i (o + 1)
    ∧ Note.frequency ⟨9, 4, b, a⟩ = .ok 440 := by
  constructor
  · unfold rawFrequency
    have h : (((i + 12 : ℕ):ℝ) - 9 + 12 * ((o:ℝ) - 4)) / 12
        = ((i:ℝ) - 9 + 12 * (((o + 1 : ℕ):ℝ) - 4)) / 12 := by
      push_cast
      ring
    rw [h]
  · rw [Note.frequency_ok (by norm_num), rawFrequency_A4]

/-- Counterexample to claim C7 as stated: the per-error "iff" conditions
ignore check precedence — with `bpm = 0` and an empty note list,
`Orchestrator::new` returns `InvalidBpm`, not `EmptyNotes`, so "EmptyNotes iff
the note list is empty" fails. -/
theorem c7_counterexample :
    Orchestrator.new 0 [] none = .error (.InvalidBpm 0)
    ∧ Orchestrator.new 0 [] none ≠ .error .EmptyNotes := by
  have h : Orchestrator.new 0 [] none = .error (.InvalidBpm 0) := by
    unfold Orchestrator.new validate_bpm
    simp
  refine ⟨h, ?_⟩
  rw [h]
  simp

/-- Claim C7 (amended): validation is construction-time and checked in order —
bpm first, then the notes left to right (id, then octave, then amplitude),
then the control points; construction succeeds iff bpm is nonzero, the list is
nonempty, every note has id ≤ 11, octave ≤ 8 and amplitude in [0,1], and any
supplied control points are exactly 4 values in [-1,1]; `bpm = 0` always gives
`InvalidBpm`, a nonzero bpm with an empty list gives `EmptyNotes`; and every
successfully constructed orchestrator's `pcm_samples` never returns an error
(the mid-render `InvalidNoteId` branch is unreachable). -/
theorem c7_validation (bpm : ℕ) (notes : List Note) (tnotes : List TimelineNote)
    (cps : Option (List ℝ)) (adsr : Option (ℝ × ℝ × ℝ × ℝ)) :
    ((∃ o, Orchestrator.new bpm notes cps = .ok o) ↔
      (bpm ≠ 0 ∧ notes ≠ []
        ∧ (∀ n ∈ notes, n.id ≤ 11 ∧ n.octave ≤ 8 ∧ 0 ≤ n.amplitude ∧ n.amplitude ≤ 1)
        ∧ ∀ pts ∈ cps, pts.length = 4 ∧ ∀ p ∈ pts, -1 ≤ p ∧ p ≤ 1))
    ∧ ((∃ o, TimelineOrchestrator.new bpm tnotes cps adsr = .ok o) ↔
      (bpm ≠ 0 ∧ tnotes ≠ []
        ∧ (∀ n ∈ tnotes, n.id ≤ 11 ∧ n.octave ≤ 8 ∧ 0 ≤ n.amplitude ∧ n.amplitude ≤ 1)
        ∧ ∀ pts ∈ cps, pts.length = 4 ∧ ∀ p ∈ pts, -1 ≤ p ∧ p ≤ 1))
    ∧ (bpm = 0 → Orchestrator.new bpm notes cps = .error (.InvalidBpm bpm)
        ∧ TimelineOrchestrator.new bpm tnotes cps adsr = .error (.InvalidBpm bpm))
    ∧ (bpm ≠ 0 → notes = [] → Orchestrator.new bpm notes cps = .error .EmptyNotes)
    ∧ (bpm ≠ 0 → tnotes = [] →
        TimelineOrchestrator.new bpm tnotes cps adsr = .error .EmptyNotes)
    ∧ (∀ o, Orchestrator.new bpm notes cps = .ok o →
        ∀ rate, ∃ l, o.pcm_samples rate = .ok l)
    ∧ (∀ o, TimelineOrchestrator.new bpm tnotes cps adsr = .ok o →
        ∀ rate, ∃ l, o.pcm_samples rate = .ok l) := by
  refine ⟨Orchestrator.new_ok_iff bpm notes cps,
    timelineOrchestrator_new_ok_iff bpm tnotes cps adsr, ?_, ?_, ?_,
    fun o h rate => Orchestrator.new_pcm_ok bpm notes cps o h rate,
    fun o h rate => timelineOrchestrator_new_pcm_ok bpm tnotes cps adsr o h rate⟩
  · intro h0
    subst h0
    constructor
    · unfold Orchestrator.new validate_bpm
      simp
    · unfold TimelineOrchestrator.new validate_bpm
      simp
  · intro hb he
    subst he
    have hb' : validate_bpm bpm = .ok () := (validate_bpm_ok_iff bpm).mpr hb
    unfold Orchestrator.new
    simp [hb', validate_notes]
  · intro hb he
    subst he
    have hb' : validate_bpm bpm = .ok () := (validate_bpm_ok_iff bpm).mpr hb
    unfold TimelineOrchestrator.new
    simp [hb', validate_timeline_notes]

/-- Claim C8 (amended): with fewer than `(2^32 - 36) / 2` samples (so that the
32-bit size fields do not wrap) and a 32-bit sample rate, the byte stream is
the 44-byte header followed by the little-endian samples, with RIFF magic,
total size `36 + 2N`, WAVE tag, fmt chunk of size 16 with PCM tag 1, mono,
sample rate `R`, block align 2, 16 bits per sample, data tag and data size
`2N`; parsing the header recovers channel count 1, bit depth 16, sample rate
`R` and data size `2N`.  Without the size bound the `u32` fields wrap modulo
`2^32` (see the counterexample). -/
theorem c8_wav_container (samples : List ℤ) (sample_rate : ℕ)
    (hN : 36 + 2 * samples.length < 2 ^ 32) (hr : sample_rate < 2 ^ 32) :
    (wav_write samples sample_rate).length = 44 + 2 * samples.length
    ∧ (wav_write samples sample_rate).take 4 = [82, 73, 70, 70]
    ∧ rd32 (wav_write samples sample_rate) 4 = 36 + 2 * samples.length
    ∧ ((wav_write samples sample_rate).drop 8).take 4 = [87, 65, 86, 69]
    ∧ ((wav_write samples sample_rate).drop 12).take 4 = [102, 109, 116, 32]
    ∧ rd32 (wav_write samples sample_rate) 16 = 16
    ∧ rd16 (wav_write samples sample_rate) 20 = 1
    ∧ rd16 (wav_write samples sample_rate) 32 = 2
    ∧ ((wav_write samples sample_rate).drop 36).take 4 = [100, 97, 116, 97]
    ∧ parseHeader (wav_write samples sample_rate)
        = (1, 16, sample_rate, 2 * samples.length)
    ∧ (wav_write samples sample_rate).drop 44 = samples.flatMap i16le := by
  obtain ⟨g1, g2, g3, g4, g5, g6, g7, g8, g9, g10, g11, g12, g13, g14⟩ :=
    wav_write_parse samples sample_rate
  refine ⟨g1, g2, ?_, g4, g5, g6, g7, g10, g12, ?_, g14⟩
  · rw [g3]
    omega
  · unfold parseHeader
    rw [g8, g11, g9, g13]
    have e1 : sample_rate % 2 ^ 32 = sample_rate := Nat.mod_eq_of_lt hr
    have e2 : samples.length % 2 ^ 32 * 2 % 2 ^ 32 = 2 * samples.length := by omega
    rw [e1, e2]

/-- Witness for C8 at two concrete samples and sample rate 8. -/
theorem c8_witness :
    (36 + 2 * ([5, -3] : List ℤ).length < 2 ^ 32 ∧ (8:ℕ) < 2 ^ 32)
    ∧ parseHeader (wav_write [5, -3] 8) = (1, 16, 8, 2 * ([5, -3] : List ℤ).length) :=
  ⟨⟨by norm_num, by norm_num⟩,
   (c8_wav_container [5, -3] 8 (by norm_num) (by norm_num)).2.2.2.2.2.2.2.2.2.1⟩

/-- Counterexample to claim C8 as stated: at `N = 2^31` samples the `u32`
data-size field wraps modulo `2^32` and parses back as 0, not `2N`. -/
theorem c8_counterexample :
    (parseHeader (wav_write (List.replicate (2 ^ 31) (0:ℤ)) 44100)).2.2.2 = 0
    ∧ 2 * (List.replicate (2 ^ 31) (0:ℤ)).length ≠ 0 := by
  obtain ⟨-, -, -, -, -, -, -, -, -, -, -, -, g13, -⟩ :=
    wav_write_parse (List.replicate (2 ^ 31) (0:ℤ)) 44100
  constructor
  · show rd32 (wav_write (List.replicate (2 ^ 31) (0:ℤ)) 44100) 40 = 0
    rw [g13, List.length_replicate]
    norm_num
  · rw [List.length_replicate]
    norm_num

/-- Claim C2 (amended): in Release (sample index past the floored nominal
duration `T`), `apply` multiplies the retained factor — which the instance
updates at every sample, Release samples included — by `(1 - (n - T)/t_r)`;
only the first Release sample scales the last non-Release factor (later ones
compound).  While the retained factor is nonnegative and `T ≤ n ≤ T + t_r`
with `t_r > 0`, the new factor stays in `[0, previous factor]`, so successive
Release factors are monotonically non-increasing toward 0. -/
theorem c2_release (e : ADSREnvelope) (s : ℝ) (n : ℕ)
    (h : fToNat (e.raw_duration_in_seconds * ((e.sample_rate):ℝ)) < n) :
    (e.apply s n).1 = s * (e.current_factor
        * (1 - ((n:ℝ) - e.raw_duration_in_seconds * ((e.sample_rate):ℝ))
            / (e.release * ((e.sample_rate):ℝ))))
    ∧ (e.apply s n).2.current_factor = e.current_factor
        * (1 - ((n:ℝ) - e.raw_duration_in_seconds * ((e.sample_rate):ℝ))
            / (e.release * ((e.sample_rate):ℝ)))
    ∧ (0 ≤ e.current_factor
        → e.raw_duration_in_seconds * ((e.sample_rate):ℝ) ≤ (n:ℝ)
        → (n:ℝ) ≤ e.raw_duration_in_seconds * ((e.sample_rate):ℝ)
            + e.release * ((e.sample_rate):ℝ)
        → 0 < e.release * ((e.sample_rate):ℝ)
        → 0 ≤ (e.apply s n).2.current_factor
          ∧ (e.apply s n).2.current_factor ≤ e.current_factor) := by
  have hrel : e.determine_state n = .Release := by
    unfold ADSREnvelope.determine_state
    rw [if_pos h]
  rw [ADSREnvelope.apply_of_release e s n hrel]
  refine ⟨rfl, rfl, fun h0 h1 h2 h3 => ?_⟩
  have hu0 : 0 ≤ ((n:ℝ) - e.raw_duration_in_seconds * ((e.sample_rate):ℝ))
      / (e.release * ((e.sample_rate):ℝ)) := div_nonneg (by linarith) (le_of_lt h3)
  have hu1 : ((n:ℝ) - e.raw_duration_in_seconds * ((e.sample_rate):ℝ))
      / (e.release * ((e.sample_rate):ℝ)) ≤ 1 := by
    rw [div_le_one h3]
    linarith
  constructor
  · exact mul_nonneg h0 (by linarith)
  · have := mul_le_mul_of_nonneg_left
      (show (1 - ((n:ℝ) - e.raw_duration_in_seconds * ((e.sample_rate):ℝ))
          / (e.release * ((e.sample_rate):ℝ))) ≤ 1 by linarith) h0
    simpa using this

/-- Witness for C2 at a concrete released envelope. -/
theorem c2_witness :
    fToNat ((1:ℝ) * ((1:ℕ):ℝ)) < 2
    ∧ ((⟨0, 0, 1, 4, 1, .Sustain, 1, 1⟩ : ADSREnvelope).apply 1 2).1
        = 1 * (1 * (1 - (((2:ℕ):ℝ) - 1 * ((1:ℕ):ℝ)) / (4 * ((1:ℕ):ℝ)))) :=
  ⟨by norm_num [fToNat],
   (c2_release ⟨0, 0, 1, 4, 1, .Sustain, 1, 1⟩ 1 2 (by norm_num [fToNat])).1⟩

/-- Counterexample to claim C2 as stated: after reaching Release at index 2
(factor 3/4), the apply at index 3 yields `3/4 * (1 - 2/4) = 3/8`, not
`last_non_release_factor * (1 - (n - T)/t_r) = 1 * (1 - 2/4) = 1/2` — the
retained factor is updated on every Release sample, so the ramp compounds. -/
theorem c2_counterexample :
    ((((ADSREnvelope.new 0 0 1 4 1 1).apply 1 1).2.apply 1 2).2.apply 1 3).1 = 3 / 8
    ∧ (3:ℝ) / 8 ≠ 1 * (1 - (((3:ℕ):ℝ) - 1 * ((1:ℕ):ℝ)) / (4 * ((1:ℕ):ℝ))) := by
  have hs1 : (⟨0, 0, 1, 4, 1, .Attack, 0, 1⟩ : ADSREnvelope).determine_state 1
      = .Sustain := by
    unfold ADSREnvelope.determine_state fToNat
    norm_num
  have he1 : ((⟨0, 0, 1, 4, 1, .Attack, 0, 1⟩ : ADSREnvelope).apply 1 1).2
      = ⟨0, 0, 1, 4, 1, .Sustain, 1, 1⟩ := by
    rw [ADSREnvelope.apply_of_sustain _ _ _ hs1]
  have hs2 : (⟨0, 0, 1, 4, 1, .Sustain, 1, 1⟩ : ADSREnvelope).determine_state 2
      = .Release := by
    unfold ADSREnvelope.determine_state fToNat
    norm_num
  have he2 : ((⟨0, 0, 1, 4, 1, .Sustain, 1, 1⟩ : ADSREnvelope).apply 1 2).2
      = ⟨0, 0, 1, 4, 1, .Release,
          1 * (1 - (((2:ℕ):ℝ) - 1 * ((1:ℕ):ℝ)) / (4 * ((1:ℕ):ℝ))), 1⟩ := by
    rw [ADSREnvelope.apply_of_release _ _ _ hs2]
  have hf2 : (1:ℝ) * (1 - (((2:ℕ):ℝ) - 1 * ((1:ℕ):ℝ)) / (4 * ((1:ℕ):ℝ))) = 3 / 4 := by
    norm_num
  rw [hf2] at he2
  have hs3 : (⟨0, 0, 1, 4, 1, .Release, 3 / 4, 1⟩ : ADSREnvelope).determine_state 3
      = .Release := by
    unfold ADSREnvelope.determine_state fToNat
    norm_num
  constructor
  · show ((((⟨0, 0, 1, 4, 1, .Attack, 0, 1⟩ : ADSREnvelope).apply 1 1).2.apply 1 2).2.apply
        1 3).1 = 3 / 8
    rw [he1, he2, ADSREnvelope.apply_of_release _ _ _ hs3]
    norm_num
  · norm_num

/-- Claim C9 (amended): the state guards compare the sample index with the
FLOORED sample counts (`as u32` casts), which over the reals means: Release
iff `T·r < n`, else Attack iff `n + 1 ≤ t_a` (not `n < t_a`, which differs at
fractional boundaries), else Decay iff `n + 1 ≤ t_a + t_d` (again the floored
combined boundary), else Sustain.  The factors are `n / t_a` in Attack,
`1 - (1 - sustain) * ((n - t_a) / t_d)` in Decay and `sustain` in Sustain; the
factor is 0 at index 0 whenever `t_a ≥ 1` sample, and exactly 1 at a boundary
index `n = t_a` lying inside the Decay window. -/
theorem c9_adsr_states (e : ADSREnvelope) (s : ℝ) (n : ℕ)
    (hT : 0 ≤ e.raw_duration_in_seconds * ((e.sample_rate):ℝ)) :
    (e.determine_state n = .Release ↔
      e.raw_duration_in_seconds * ((e.sample_rate):ℝ) < (n:ℝ))
    ∧ (e.determine_state n ≠ .Release →
        (e.determine_state n = .Attack ↔ (n:ℝ) + 1 ≤ e.attack * ((e.sample_rate):ℝ)))
    ∧ (e.determine_state n ≠ .Release → e.determine_state n ≠ .Attack →
        (e.determine_state n = .Decay ↔
          (n:ℝ) + 1 ≤ (e.attack + e.decay) * ((e.sample_rate):ℝ)))
    ∧ (e.determine_state n ≠ .Release → e.determine_state n ≠ .Attack →
        e.determine_state n ≠ .Decay → e.determine_state n = .Sustain)
    ∧ (e.determine_state n = .Attack →
        (e.apply s n).1 = s * ((n:ℝ) / (e.attack * ((e.sample_rate):ℝ))))
    ∧ (e.determine_state n = .Decay →
        (e.apply s n).1 = s * (1 - (1 - e.sustain)
          * (((n:ℝ) - e.attack * ((e.sample_rate):ℝ)) / (e.decay * ((e.sample_rate):ℝ)))))
    ∧ (e.determine_state n = .Sustain → (e.apply s n).1 = s * e.sustain)
    ∧ (1 ≤ e.attack * ((e.sample_rate):ℝ) →
        (e.apply s 0).1 = 0 ∧ (e.apply s 0).2.current_factor = 0)
    ∧ ((n:ℝ) = e.attack * ((e.sample_rate):ℝ)
        → (n:ℝ) ≤ e.raw_duration_in_seconds * ((e.sample_rate):ℝ)
        → (n:ℝ) + 1 ≤ (e.attack + e.decay) * ((e.sample_rate):ℝ)
        → (e.apply s n).1 = s ∧ (e.apply s n).2.current_factor = 1) := by
  refine ⟨e.determine_state_release_iff n hT, e.determine_state_attack_iff n,
    e.determine_state_decay_iff n, e.determine_state_sustain_of n,
    fun h => by rw [ADSREnvelope.apply_of_attack e s n h],
    fun h => by rw [ADSREnvelope.apply_of_decay e s n h],
    fun h => by rw [ADSREnvelope.apply_of_sustain e s n h], ?_, ?_⟩
  · intro ha
    have hrel : e.determine_state 0 ≠ .Release := fun hcon => by
      rw [e.determine_state_release_iff 0 hT] at hcon
      push_cast at hcon
      linarith
    have hatt : e.determine_state 0 = .Attack := by
      rw [e.determine_state_attack_iff 0 hrel]
      push_cast
      linarith
    rw [ADSREnvelope.apply_of_attack e s 0 hatt]
    norm_num
  · intro hn hT' hd
    have hrel : e.determine_state n ≠ .Release := fun hcon => by
      rw [e.determine_state_release_iff n hT] at hcon
      linarith
    have hatt : e.determine_state n ≠ .Attack := fun hcon => by
      rw [e.determine_state_attack_iff n hrel, ← hn] at hcon
      linarith
    have hdec : e.determine_state n = .Decay :=
      (e.determine_state_decay_iff n hrel hatt).mpr hd
    rw [ADSREnvelope.apply_of_decay e s n hdec, hn]
    constructor <;> simp

/-- Witness for C9 at a concrete envelope (attack 1 s, decay 1 s, sustain 1/2,
rate 2) evaluated at the Attack/Decay boundary index 2. -/
theorem c9_witness :
    ((⟨1, 1, 1/2, 1, 2, .Attack, 0, 3⟩ : ADSREnvelope).apply 5 2).1 = 5
    ∧ ((⟨1, 1, 1/2, 1, 2, .Attack, 0, 3⟩ : ADSREnvelope).apply 5 2).2.current_factor = 1 :=
  (c9_adsr_states ⟨1, 1, 1/2, 1, 2, .Attack, 0, 3⟩ 5 2
    (by norm_num)).2.2.2.2.2.2.2.2 (by norm_num) (by norm_num) (by norm_num)

/-- Counterexample to claim C9 as stated: with attack = decay = 2.5 samples
(attack 2.5 s, rate 1) and sustain 0, at index 2 the claim's rule
`n < t_a` (2 < 2.5) puts the envelope in Attack with factor `2/2.5 = 0.8`, but
the code compares against the floored boundary `(2.5 as u32) = 2`, lands in
Decay, and — the decay offset `n - t_a = -0.5` being negative — returns
factor 6/5, above 1. -/
theorem c9_counterexample :
    (ADSREnvelope.new (5/2) (5/2) 0 1 1 100).determine_state 2 = .Decay
    ∧ ((ADSREnvelope.new (5/2) (5/2) 0 1 1 100).apply 1 2).1 = 6 / 5
    ∧ (6:ℝ) / 5 ≠ (2:ℝ) / (5 / 2) := by
  have hd : (ADSREnvelope.new (5/2) (5/2) 0 1 1 100).determine_state 2 = .Decay := by
    unfold ADSREnvelope.new ADSREnvelope.determine_state fToNat
    norm_num
  refine ⟨hd, ?_, by norm_num⟩
  rw [ADSREnvelope.apply_of_decay _ _ _ hd]
  norm_num [ADSREnvelope.new]

/-- Claim C10: with `adsr = None`, `TimelineOrchestrator::new` defaults the
envelope parameters to attack 0, decay 0, sustain 1.0, release 0; under those
parameters every `apply` at an in-duration index (at most the floored nominal
duration in samples) is in Sustain and multiplies by exactly 1.0; and with
release 0 the output buffer length has no release padding. -/
theorem c10_default_envelope (bpm : ℕ) (notes : List TimelineNote)
    (e : ADSREnvelope) (s : ℝ) (i : ℕ) (o : TimelineSineOrchestrator) (rate : ℕ)
    (hbpm : validate_bpm bpm = .ok ()) (hnotes : validate_timeline_notes notes = .ok ())
    (ha : e.attack = 0) (hd : e.decay = 0) (hs : e.sustain = 1)
    (hi : i ≤ fToNat (e.raw_duration_in_seconds * ((e.sample_rate):ℝ)))
    (hrel : o.release = 0) :
    TimelineOrchestrator.new bpm notes none none
      = .ok (.Sine ⟨bpm, notes, 0, 0, 1, 0⟩)
    ∧ (e.apply s i).1 = s
    ∧ (e.apply s i).2.current_factor = 1
    ∧ o.total_samples rate
        = (⌈(o.notes.foldl (fun m note => max m (note.start_time + note.duration)) 0
            * (60 / ((o.bpm):ℝ))) * (rate:ℝ)⌉).toNat := by
  have hst : e.determine_state i = .Sustain := by
    unfold ADSREnvelope.determine_state
    rw [ha, hd]
    rw [if_neg (by omega), if_neg (by simp [fToNat]), if_neg (by simp [fToNat])]
  refine ⟨?_, ?_, ?_, ?_⟩
  · unfold TimelineOrchestrator.new
    simp [hbpm, hnotes]
  · rw [ADSREnvelope.apply_of_sustain e s i hst, hs]
    exact mul_one s
  · rw [ADSREnvelope.apply_of_sustain e s i hst]
    exact hs
  · unfold TimelineSineOrchestrator.total_samples
    simp only [hrel, add_zero]

/-- Witness for C10 at a concrete configuration. -/
theorem c10_witness :
    TimelineOrchestrator.new 120 [⟨9, 4, 0, 1, 1⟩] none none
      = .ok (.Sine ⟨120, [⟨9, 4, 0, 1, 1⟩], 0, 0, 1, 0⟩)
    ∧ ((ADSREnvelope.new 0 0 1 0 4 1).apply (1/2) 3).1 = 1/2 :=
  ⟨(c10_default_envelope 120 [⟨9, 4, 0, 1, 1⟩] (ADSREnvelope.new 0 0 1 0 4 1) (1/2) 3
      ⟨60, [⟨9, 4, 0, 1, 1⟩], 0, 0, 1, 0⟩ 2
      (by norm_num [validate_bpm])
      (by norm_num [validate_timeline_notes, validateTimelineNoteList, validate_timeline_note])
      rfl rfl rfl (by norm_num [fToNat, ADSREnvelope.new]) rfl).1,
   (c10_default_envelope 120 [⟨9, 4, 0, 1, 1⟩] (ADSREnvelope.new 0 0 1 0 4 1) (1/2) 3
      ⟨60, [⟨9, 4, 0, 1, 1⟩], 0, 0, 1, 0⟩ 2
      (by norm_num [validate_bpm])
      (by norm_num [validate_timeline_notes, validateTimelineNoteList, validate_timeline_note])
      rfl rfl rfl (by norm_num [fToNat, ADSREnvelope.new]) rfl).2.1⟩

theorem length_flatMap_seq (bpm sample_rate : ℕ) (notes : List Note) :
    (notes.flatMap (seqNoteBlock bpm sample_rate)).length
      = (notes.map
          (fun n => fToNat (n.beats * (60 / (bpm:ℝ)) * (sample_rate:ℝ)))).sum := by
  induction notes with
  | nil => simp
  | cons note rest ih => simp [seqNoteBlock, ih]

/-- Claim C1: sequential strategy — for a validated orchestrator (bpm and note
list pass validation), `pcm_samples` returns the concatenation, in input order
with no gaps and no envelope applied, of the notes' sample blocks; each note
contributes exactly `floor(beats * (60/bpm) * sample_rate)` sine PCM samples
generated from local index 0, and the total length is the sum of the per-note
counts. -/
theorem c1_sequential (o : SineOrchestrator) (sample_rate : ℕ)
    (hbpm : validate_bpm o.bpm = .ok ()) (hnotes : validate_notes o.notes = .ok ()) :
    o.pcm_samples sample_rate = .ok (o.notes.flatMap (seqNoteBlock o.bpm sample_rate))
    ∧ (o.notes.flatMap (seqNoteBlock o.bpm sample_rate)).length
        = (o.notes.map
            (fun n => fToNat (n.beats * (60 / ((o.bpm):ℝ)) * (sample_rate:ℝ)))).sum := by
  have hids : ∀ n ∈ o.notes, n.id ≤ 11 := fun n hmem =>
    (((validate_notes_ok_iff o.notes).mp hnotes).2 n hmem).1
  exact ⟨sinePcmNotes_ok o.bpm sample_rate o.notes hids,
    length_flatMap_seq o.bpm sample_rate o.notes⟩

/-- Witness for C1 at bpm 120, one A4 note of one beat, sample rate 4. -/
theorem c1_witness :
    (validate_bpm 120 = .ok () ∧ validate_notes [⟨9, 4, 1, 1⟩] = .ok ())
    ∧ SineOrchestrator.pcm_samples ⟨120, [⟨9, 4, 1, 1⟩]⟩ 4
        = .ok (([⟨9, 4, 1, 1⟩] : List Note).flatMap (seqNoteBlock 120 4)) :=
  ⟨⟨by norm_num [validate_bpm],
    by norm_num [validate_notes, validateNoteList, validate_note]⟩,
   (c1_sequential ⟨120, [⟨9, 4, 1, 1⟩]⟩ 4 (by norm_num [validate_bpm])
     (by norm_num [validate_notes, validateNoteList, validate_note])).1⟩

/-- Claim C4: timeline strategy — for a validated timeline job the render
always succeeds (out-of-buffer contributions are silently dropped, never an
error: the `min` with `total - start` in `noteContribAt` is exactly the
in-buffer truncation of each note's local loop over
`0 .. floor((duration + release) * seconds_per_beat * sample_rate)`), the
output length equals
`ceil(((max over notes of start+duration) * seconds_per_beat + release) *
sample_rate)`, and each slot holds the tanh-clipped scaled sum of the per-note
contributions at that global index. -/
theorem c4_timeline (o : TimelineSineOrchestrator) (sample_rate : ℕ)
    (hnotes : validate_timeline_notes o.notes = .ok ()) :
    o.pcm_samples sample_rate = .ok ((List.range (o.total_samples sample_rate)).map
      (fun k => fToInt (Real.tanh
        ((o.notes.map
          (fun nt => sineNoteContrib o sample_rate (o.total_samples sample_rate) nt k)).sum)
        * TIMELINE_PCM_BIT_RANGE)))
    ∧ o.total_samples sample_rate
        = (⌈((o.notes.foldl (fun m note => max m (note.start_time + note.duration)) 0)
            * (60 / ((o.bpm):ℝ)) + o.release) * (sample_rate:ℝ)⌉).toNat
    ∧ (∀ l, o.pcm_samples sample_rate = .ok l → l.length = o.total_samples sample_rate) := by
  have hids : ∀ nt ∈ o.notes, nt.id ≤ 11 := fun nt hmem =>
    (((validate_timeline_notes_ok_iff o.notes).mp hnotes).2 nt hmem).1
  have hspec := TimelineSineOrchestrator.pcm_spec o sample_rate hids
  refine ⟨hspec, rfl, fun l hl => ?_⟩
  rw [hspec] at hl
  injection hl with hl2
  subst hl2
  simp

/-- Witness for C4 at bpm 60, one A4 note of half a beat starting at 0, sample
rate 3, no envelope. -/
theorem c4_witness :
    validate_timeline_notes [⟨9, 4, 0, 1/2, 1⟩] = .ok ()
    ∧ TimelineSineOrchestrator.pcm_samples ⟨60, [⟨9, 4, 0, 1/2, 1⟩], 0, 0, 1, 0⟩ 3
      = .ok ((List.range
          (TimelineSineOrchestrator.total_samples ⟨60, [⟨9, 4, 0, 1/2, 1⟩], 0, 0, 1, 0⟩ 3)).map
        (fun k => fToInt (Real.tanh
          ((([⟨9, 4, 0, 1/2, 1⟩] : List TimelineNote).map
            (fun nt => sineNoteContrib ⟨60, [⟨9, 4, 0, 1/2, 1⟩], 0, 0, 1, 0⟩ 3
              (TimelineSineOrchestrator.total_samples
                ⟨60, [⟨9, 4, 0, 1/2, 1⟩], 0, 0, 1, 0⟩ 3) nt k)).sum)
          * TIMELINE_PCM_BIT_RANGE))) :=
  ⟨by norm_num [validate_timeline_notes, validateTimelineNoteList, validate_timeline_note],
   (c4_timeline ⟨60, [⟨9, 4, 0, 1/2, 1⟩], 0, 0, 1, 0⟩ 3
     (by norm_num [validate_timeline_notes, validateTimelineNoteList,
       validate_timeline_note])).1⟩

theorem fToNat_zero_of (x : ℝ) (hx : x = 0) : fToNat x = 0 := by
  rw [hx]
  simp [fToNat]

theorem processedSample_default (wsample : ℕ → ℝ) (rate : ℕ) (T : ℝ) (k : ℕ)
    (hk : k ≤ fToNat (T * (rate:ℝ))) :
    processedSample wsample (ADSREnvelope.new 0 0 1 0 rate T) k = wsample k := by
  unfold processedSample
  obtain ⟨f1, f2, f3, -, f5, f6⟩ := envAfter_fields wsample (ADSREnvelope.new 0 0 1 0 rate T) k
  set env' := envAfter wsample (ADSREnvelope.new 0 0 1 0 rate T) k with henv
  have g1 : env'.attack = 0 := f1.trans rfl
  have g2 : env'.decay = 0 := f2.trans rfl
  have g3 : env'.sustain = 1 := f3.trans rfl
  have g5 : env'.sample_rate = rate := f5.trans rfl
  have g6 : env'.raw_duration_in_seconds = T := f6.trans rfl
  have hst : env'.determine_state k = .Sustain := by
    unfold ADSREnvelope.determine_state
    rw [g1, g2, g5, g6]
    rw [if_neg (by omega), if_neg (by simp [fToNat]), if_neg (by simp [fToNat])]
  rw [ADSREnvelope.apply_of_sustain env' (wsample k) k hst]
  show wsample k * env'.sustain = wsample k
  rw [g3, mul_one]

/-- Claim C3 (amended): a single `TimelineNote` with `start_time = 0` and no
envelope does NOT reproduce the sequential output; instead the two renders are
related as follows — the timeline output has `ceil(d * spb * R)` samples, each
equal to `trunc(tanh(0.9 * a * sin θ_k) * 32767)` (the amplitude is condensed
by 0.9 and soft-clipped with tanh), while the sequential output has
`floor(d * spb * R)` samples, each `trunc(clamp(a * sin θ_k, -1, 1) * 32767)`;
both derive from the same per-index sine values. -/
theorem c3_single_note (nt : TimelineNote) (bpm sample_rate : ℕ)
    (hstart : nt.start_time = 0) (hid : nt.id ≤ 11) (hdur : 0 ≤ nt.duration) :
    TimelineSineOrchestrator.pcm_samples ⟨bpm, [nt], 0, 0, 1, 0⟩ sample_rate
      = .ok ((List.range ((⌈nt.duration * (60 / (bpm:ℝ)) * (sample_rate:ℝ)⌉).toNat)).map
        (fun k => fToInt (Real.tanh
          (if k < fToNat (nt.duration * (60 / (bpm:ℝ)) * (sample_rate:ℝ)) then
            nt.amplitude * CONDENSE_CONSTANT
              * Real.sin ((2 * Real.pi * rawFrequency nt.id nt.octave * (k:ℝ))
                  / (sample_rate:ℝ))
          else 0)
          * TIMELINE_PCM_BIT_RANGE)))
    ∧ SineOrchestrator.pcm_samples ⟨bpm, [⟨nt.id, nt.octave, nt.duration, nt.amplitude⟩]⟩
        sample_rate
      = .ok ((List.range (fToNat (nt.duration * (60 / (bpm:ℝ)) * (sample_rate:ℝ)))).map
        (fun (k : ℕ) => fToInt (max (-1) (min (nt.amplitude
            * Real.sin ((2 * Real.pi * rawFrequency nt.id nt.octave * (k:ℝ))
                / (sample_rate:ℝ))) 1)
          * ((PCM_BIT_RANGE):ℝ)))) := by
  constructor
  · have hids : ∀ x ∈ ([nt] : List TimelineNote), x.id ≤ 11 := by simpa using hid
    have hspec := TimelineSineOrchestrator.pcm_spec ⟨bpm, [nt], 0, 0, 1, 0⟩ sample_rate hids
    have htotal : (⟨bpm, [nt], 0, 0, 1, 0⟩ : TimelineSineOrchestrator).total_samples
        sample_rate = (⌈nt.duration * (60 / (bpm:ℝ)) * (sample_rate:ℝ)⌉).toNat := by
      unfold TimelineSineOrchestrator.total_samples
      simp only [List.foldl_cons, List.foldl_nil, hstart, zero_add, add_zero]
      rw [max_eq_right hdur]
    have hcontrib : ∀ k,
        sineNoteContrib ⟨bpm, [nt], 0, 0, 1, 0⟩ sample_rate
          ((⌈nt.duration * (60 / (bpm:ℝ)) * (sample_rate:ℝ)⌉).toNat) nt k
        = (if k < fToNat (nt.duration * (60 / (bpm:ℝ)) * (sample_rate:ℝ)) then
            nt.amplitude * CONDENSE_CONSTANT
              * Real.sin ((2 * Real.pi * rawFrequency nt.id nt.octave * (k:ℝ))
                  / (sample_rate:ℝ))
          else 0) := by
      intro k
      have hz : fToNat (nt.start_time * (60 / (bpm:ℝ)) * (sample_rate:ℝ)) = 0 :=
        fToNat_zero_of _ (by rw [hstart]; ring)
      unfold sineNoteContrib noteContribAt
      simp only [hz, add_zero, Nat.sub_zero, Nat.zero_le, true_and]
      rw [min_eq_left fToNat_le_ceil_toNat]
      split_ifs with hk
      · rw [processedSample_default _ sample_rate (nt.duration * (60 / (bpm:ℝ))) k
          (le_of_lt hk)]
        rfl
      · rfl
    rw [hspec, htotal]
    congr 1
    apply List.map_congr_left
    intro k _hk
    simp only [List.map_cons, List.map_nil, List.sum_cons, List.sum_nil, add_zero]
    rw [hcontrib k]
  · have hseq := sinePcmNotes_ok bpm sample_rate
      [⟨nt.id, nt.octave, nt.duration, nt.amplitude⟩] (by simpa using hid)
    show sinePcmNotes bpm sample_rate [⟨nt.id, nt.octave, nt.duration, nt.amplitude⟩] = _
    rw [hseq]
    congr 1
    simp only [List.flatMap_cons, List.flatMap_nil, List.append_nil]
    unfold seqNoteBlock
    apply List.map_congr_left
    intro k _hk
    rfl

/-- Witness for C3 at bpm 60, sample rate 3, a half-beat A4 note at start 0. -/
theorem c3_witness :
    ((⟨9, 4, 0, 1/2, 1⟩ : TimelineNote).start_time = 0
      ∧ (⟨9, 4, 0, 1/2, 1⟩ : TimelineNote).id ≤ 11
      ∧ (0:ℝ) ≤ (⟨9, 4, 0, 1/2, 1⟩ : TimelineNote).duration)
    ∧ SineOrchestrator.pcm_samples ⟨60, [⟨9, 4, 1/2, 1⟩]⟩ 3
      = .ok ((List.range (fToNat ((1/2 : ℝ) * (60 / ((60:ℕ):ℝ)) * ((3:ℕ):ℝ)))).map
        (fun (k : ℕ) => fToInt (max (-1) (min ((1:ℝ)
            * Real.sin ((2 * Real.pi * rawFrequency 9 4 * (k:ℝ)) / ((3:ℕ):ℝ))) 1)
          * ((PCM_BIT_RANGE):ℝ)))) :=
  ⟨⟨rfl, by norm_num, by norm_num⟩,
   (c3_single_note ⟨9, 4, 0, 1/2, 1⟩ 60 3 rfl (by norm_num) (by norm_num)).2⟩

/-- Counterexample to claim C3 as stated: bpm 60, sample rate 3, one half-beat
note at start 0 with no envelope — the timeline render produces 2 samples
(`ceil(1.5)`) while the sequential render produces 1 (`floor(1.5)`), so the
outputs are not identical (not even in length, hence not up to rounding). -/
theorem c3_counterexample :
    Except.map List.length
      (TimelineSineOrchestrator.pcm_samples ⟨60, [⟨9, 4, 0, 1/2, 1⟩], 0, 0, 1, 0⟩ 3)
      = .ok 2
    ∧ Except.map List.length
      (SineOrchestrator.pcm_samples ⟨60, [⟨9, 4, 1/2, 1⟩]⟩ 3) = .ok 1 := by
  constructor
  · have hids : ∀ x ∈ ([⟨9, 4, 0, 1/2, 1⟩] : List TimelineNote), x.id ≤ 11 := by
      intro x hx
      rw [List.mem_singleton] at hx
      subst hx
      norm_num
    have hspec := TimelineSineOrchestrator.pcm_spec
      ⟨60, [⟨9, 4, 0, 1/2, 1⟩], 0, 0, 1, 0⟩ 3 hids
    have htotal : (⟨60, [⟨9, 4, 0, 1/2, 1⟩], 0, 0, 1, 0⟩ :
        TimelineSineOrchestrator).total_samples 3 = 2 := by
      unfold TimelineSineOrchestrator.total_samples
      simp only [List.foldl_cons, List.foldl_nil, add_zero, zero_add]
      rw [show max (0:ℝ) (1/2) = 1/2 from max_eq_right (by norm_num)]
      rw [show (1/2 : ℝ) * (60 / ((60:ℕ):ℝ)) * ((3:ℕ):ℝ) = 3/2 from by push_cast; norm_num]
      rw [show ⌈(3/2 : ℝ)⌉ = 2 from by
        rw [Int.ceil_eq_iff]
        norm_num]
      rfl
    rw [hspec]
    simp only [Except.map, List.length_map, List.length_range, htotal]
  · have hids : ∀ x ∈ ([⟨9, 4, 1/2, 1⟩] : List Note), x.id ≤ 11 := by
      intro x hx
      rw [List.mem_singleton] at hx
      subst hx
      norm_num
    have hseq := sinePcmNotes_ok 60 3 [⟨9, 4, 1/2, 1⟩] hids
    show Except.map List.length (sinePcmNotes 60 3 [⟨9, 4, 1/2, 1⟩]) = .ok 1
    rw [hseq]
    simp only [Except.map, List.flatMap_cons, List.flatMap_nil, List.append_nil]
    unfold seqNoteBlock
    simp only [List.length_map, List.length_range]
    norm_num [fToNat]

/-- Witness for C7: bpm 0 gives InvalidBpm, and a validly constructed sine
orchestrator renders without error. -/
theorem c7_witness :
    Orchestrator.new 0 ([] : List Note) none = .error (.InvalidBpm 0)
    ∧ ∃ l, Orchestrator.pcm_samples (.Sine ⟨120, [⟨9, 4, 1, 1⟩]⟩) 4 = .ok l :=
  ⟨((c7_validation 0 [] [] none none).2.2.1 rfl).1,
   (c7_validation 120 [⟨9, 4, 1, 1⟩] [] none none).2.2.2.2.2.1 (.Sine ⟨120, [⟨9, 4, 1, 1⟩]⟩)
     (by norm_num [Orchestrator.new, validate_bpm, validate_notes, validateNoteList,
       validate_note]) 4⟩
